import Mathlib

/-!
Verification development for the `eval` expression-language crate.

The repository ships `lib.rs` (public pipeline wrappers and the unit-test
suite); the core modules (`value`, `error`, `token`, `tree`, `operator`,
`configuration`, `function`) are declared there but their sources are not
present. Those components are therefore modelled from the specification
(sections 3, 4.1, 4.2, 4.3 and 7), with the repository's own unit tests as
the binding reference for observable behavior. Each modelled definition
carries a doc comment naming what it models.

Rust 64-bit integers are modelled as `Int` (no claim approaches the i64
boundaries) and IEEE doubles as `Rat` (all numeric claims are about exact
rational values). Rational arithmetic is implemented through `mkRat`
because the library's `Rat.add`/`Rat.mul`/... are `@[irreducible]`,
which would block kernel evaluation; the `rat*_eq` bridge lemmas below
prove these helpers equal to the standard field operations on `ℚ`.
-/

namespace Evalexpr

/-! ## Computable rational arithmetic helpers -/

/-- Rational embedding of an integer. -/
def ratOfInt (a : Int) : Rat := mkRat a 1

/-- Rational multiplication via `mkRat` (kernel-reducible). -/
def ratMul (a b : Rat) : Rat := mkRat (a.num * b.num) (a.den * b.den)

/-- Rational inverse via `mkRat` (kernel-reducible). -/
def ratInv (a : Rat) : Rat :=
  if a.num < 0 then mkRat (-(a.den : Int)) a.num.natAbs
  else mkRat (a.den : Int) a.num.natAbs

/-- Rational division via `mkRat` (kernel-reducible). -/
def ratDiv (a b : Rat) : Rat := ratMul a (ratInv b)

/-- Rational addition via `mkRat` (kernel-reducible). -/
def ratAdd (a b : Rat) : Rat := mkRat (a.num * b.den + b.num * a.den) (a.den * b.den)

/-- Rational negation via `mkRat` (kernel-reducible). -/
def ratNeg (a : Rat) : Rat := mkRat (-a.num) a.den

/-- Rational subtraction via `mkRat` (kernel-reducible). -/
def ratSub (a b : Rat) : Rat := ratAdd a (ratNeg b)

/-- Truncation of a rational toward zero (Rust float-to-int cast style). -/
def ratTrunc (a : Rat) : Int := Int.tdiv a.num (a.den : Int)

/-- Rational remainder truncated toward zero, mirroring Rust's `%` on floats. -/
def ratMod (a b : Rat) : Rat := ratSub a (ratMul b (ratOfInt (ratTrunc (ratDiv a b))))

/-- Boolean strict-less test on rationals (kernel-reducible). -/
def ratLtb (a b : Rat) : Bool := a.num * b.den < b.num * a.den

/-- Boolean less-or-equal test on rationals (kernel-reducible). -/
def ratLeb (a b : Rat) : Bool := a.num * b.den ≤ b.num * a.den

theorem ratOfInt_eq (a : Int) : ratOfInt a = (a : ℚ) := by
  simp [ratOfInt, Rat.mkRat_eq_div]

theorem ratMul_eq (a b : Rat) : ratMul a b = a * b := by
  rw [ratMul, Rat.mul_def]
  exact (Rat.normalize_eq_mkRat _).symm

theorem ratAdd_eq (a b : Rat) : ratAdd a b = a + b := by
  rw [ratAdd, Rat.add_def]
  rw [Rat.normalize_eq_mkRat]

theorem ratNeg_eq (a : Rat) : ratNeg a = -a := by
  rw [ratNeg, Rat.neg_def, Rat.mkRat_eq_divInt]

theorem ratSub_eq (a b : Rat) : ratSub a b = a - b := by
  rw [ratSub, ratAdd_eq, ratNeg_eq, sub_eq_add_neg]

theorem ratInv_eq (a : Rat) : ratInv a = a⁻¹ := by
  rw [Rat.inv_def', ratInv]
  rcases lt_trichotomy a.num 0 with h | h | h
  · rw [if_pos h, Rat.mkRat_eq_divInt]
    have hna : (a.num.natAbs : Int) = -a.num := by omega
    rw [hna]
    exact Rat.neg_divInt_neg _ _
  · rw [if_neg (by omega), Rat.mkRat_eq_divInt]
    have hna : (a.num.natAbs : Int) = a.num := by omega
    rw [hna]
  · rw [if_neg (by omega), Rat.mkRat_eq_divInt]
    have hna : (a.num.natAbs : Int) = a.num := by omega
    rw [hna]

theorem ratDiv_eq (a b : Rat) : ratDiv a b = a / b := by
  rw [ratDiv, ratMul_eq, ratInv_eq, div_eq_mul_inv]

/-! ## Value

Modelled from the spec (section 3): the closed runtime type of the
interpreter, a tagged union of Integer, Float, Boolean, String and Array.
Constructor names follow the Rust `Value` enum (`Int`, `Float`, `Boolean`,
`String`, `Array`), lower-cased to avoid clashing with the Lean types. -/

inductive Value where
  | int (n : Int)
  | float (q : Rat)
  | boolean (b : Bool)
  | string (s : String)
  | array (elems : List Value)

mutual

/-- Structural boolean equality on `Value` (used to derive decidable
propositional equality; distinct from the evaluator's `==` semantics). -/
def Value.beq : Value → Value → Bool
  | .int a, .int b => a == b
  | .float p, .float q => p == q
  | .boolean a, .boolean b => a == b
  | .string a, .string b => a == b
  | .array a, .array b => Value.beqList a b
  | _, _ => false

/-- Element-wise `Value.beq` on lists. -/
def Value.beqList : List Value → List Value → Bool
  | [], [] => true
  | a :: as_, b :: bs => Value.beq a b && Value.beqList as_ bs
  | _, _ => false

end

mutual

theorem Value.beq_iff : ∀ a b : Value, Value.beq a b = true ↔ a = b
  | .int a, .int b => by simp [Value.beq]
  | .float p, .float q => by simp [Value.beq]
  | .boolean a, .boolean b => by simp [Value.beq]
  | .string a, .string b => by simp [Value.beq]
  | .array a, .array b => by
    simp only [Value.beq, Value.array.injEq]
    exact Value.beqList_iff a b
  | .int _, .float _ => by simp [Value.beq]
  | .int _, .boolean _ => by simp [Value.beq]
  | .int _, .string _ => by simp [Value.beq]
  | .int _, .array _ => by simp [Value.beq]
  | .float _, .int _ => by simp [Value.beq]
  | .float _, .boolean _ => by simp [Value.beq]
  | .float _, .string _ => by simp [Value.beq]
  | .float _, .array _ => by simp [Value.beq]
  | .boolean _, .int _ => by simp [Value.beq]
  | .boolean _, .float _ => by simp [Value.beq]
  | .boolean _, .string _ => by simp [Value.beq]
  | .boolean _, .array _ => by simp [Value.beq]
  | .string _, .int _ => by simp [Value.beq]
  | .string _, .float _ => by simp [Value.beq]
  | .string _, .boolean _ => by simp [Value.beq]
  | .string _, .array _ => by simp [Value.beq]
  | .array _, .int _ => by simp [Value.beq]
  | .array _, .float _ => by simp [Value.beq]
  | .array _, .boolean _ => by simp [Value.beq]
  | .array _, .string _ => by simp [Value.beq]

theorem Value.beqList_iff : ∀ a b : List Value, Value.beqList a b = true ↔ a = b
  | [], [] => by simp [Value.beqList]
  | [], _ :: _ => by simp [Value.beqList]
  | _ :: _, [] => by simp [Value.beqList]
  | a :: as_, b :: bs => by
    simp only [Value.beqList, Bool.and_eq_true, List.cons.injEq]
    exact and_congr (Value.beq_iff a b) (Value.beqList_iff as_ bs)

end

instance : DecidableEq Value := fun a b => decidable_of_iff _ (Value.beq_iff a b)

/-! ## Error

Modelled from the spec (section 7): the closed error taxonomy. Payloads
follow the spec's description (the `UnexpectedCharacter` position payload
is omitted; no claim depends on it). `EmptyExpression` is the builder's
end-state error for an input with no expression at all (not separately
named by the spec's taxonomy, and produced on no claim-relevant input). -/

inductive Error where
  | UnmatchedQuote
  | UnexpectedCharacter (c : Char)
  | UnexpectedToken
  | MissingClosingBracket
  | MissingOperand
  | WrongArgumentAmount (actual expected : Nat)
  | AppendedToLeafNode
  | VariableIdentifierNotFound (name : String)
  | FunctionIdentifierNotFound (name : String)
  | ExpectedNumber (v : Value)
  | ExpectedBoolean (v : Value)
  | IndexOutOfBounds
  | FieldNotFound (name : String)
  | EmptyExpression
deriving DecidableEq

instance {ε α : Type} [DecidableEq ε] [DecidableEq α] : DecidableEq (Except ε α) :=
  fun a b =>
  match a, b with
  | .ok x, .ok y => decidable_of_iff (x = y) (by simp)
  | .error e, .error f => decidable_of_iff (e = f) (by simp)
  | .ok _, .error _ => isFalse (by simp)
  | .error _, .ok _ => isFalse (by simp)

/-- Constructor helper matching the Rust `Error::expected_number`. -/
def Error.expected_number (v : Value) : Error := Error.ExpectedNumber v

/-- Constructor helper matching the Rust `Error::wrong_argument_amount`. -/
def Error.wrong_argument_amount (actual expected : Nat) : Error :=
  Error.WrongArgumentAmount actual expected

/-! ## Function and Configuration

Modelled from the spec (sections 3 and 6): a `Function` is an arity plus a
body from evaluated arguments to a result; a `Configuration` resolves
variable and function names. The always-empty configuration backs the
zero-context `eval` entry point. The in-memory map implementation is a
particular `Configuration` value and needs no separate model. -/

structure Function where
  argument_amount : Nat
  function : List Value → Except Error Value

structure Configuration where
  get_variable : String → Option Value
  get_function : String → Option Function

/-- Modelled from the spec: the always-empty configuration. -/
def EmptyConfiguration : Configuration :=
  { get_variable := fun _ => none, get_function := fun _ => none }

/-! ## Token

Modelled from the spec (sections 3 and 4.1): the token alphabet, covering
Integer, Float, Boolean and String literals, identifiers, the operator
lexemes, the four delimiters, comma, dot and the range dots. -/

inductive Token where
  | intLit (n : Int)
  | floatLit (q : Rat)
  | boolLit (b : Bool)
  | strLit (s : String)
  | ident (name : String)
  | plus | minus | star | slash | percent
  | eq | neq | lt | gt | leq | geq
  | and | or | bang
  | lparen | rparen | lbracket | rbracket
  | comma | dot | rangedots
deriving DecidableEq

/-- Modelled from the spec (section 4.2): tokens that can end a value, so a
`-` right after one is binary subtraction. -/
def Token.isRightsidedValue : Token → Bool
  | .intLit _ | .floatLit _ | .boolLit _ | .strLit _ | .ident _
  | .rparen | .rbracket => true
  | _ => false

/-- Modelled from the spec (section 4.2): tokens that can start a value, so
an identifier right before one is a function identifier (juxtaposition or
parenthesized call). -/
def Token.isLeftsidedValue : Token → Bool
  | .intLit _ | .floatLit _ | .boolLit _ | .strLit _ | .ident _ | .lparen => true
  | _ => false

/-! ## Tokenizer

Modelled from the spec (section 4.1): a left-to-right scan skipping ASCII
whitespace, with maximal-munch numeric literals (`digits` or
`digits.digits`), `true`/`false` recognized as Boolean literals,
identifiers over letters/digits/underscore, and operators matched
longest-first (`==`, `!=`, `<=`, `>=`, `&&`, `||`, `..` before the
single-character lexemes). The scan is a fold over the characters with an
explicit partial-token mode, so every step is structurally recursive. -/

/-- Numeric value of a digit run, exactly as a left-to-right accumulator. -/
def natVal (ds : List Char) : Nat :=
  ds.foldl (fun a c => a * 10 + (c.toNat - 48)) 0

/-- Rational value of a float literal with integer digits `ds` and
fractional digits `fs`. -/
def floatVal (ds fs : List Char) : Rat :=
  mkRat ((natVal ds : Int) * (10 : Int) ^ fs.length + (natVal fs : Int)) (10 ^ fs.length)

/-- Modelled from the spec: `true` and `false` tokenize as Boolean
literals, any other identifier as an `Identifier` token. -/
def identToken (cs : List Char) : Token :=
  let s := String.mk cs
  if s = "true" then Token.boolLit true
  else if s = "false" then Token.boolLit false
  else Token.ident s

/-- ASCII digit test, by code point (48-57). -/
def isDigitChar (c : Char) : Bool := 48 ≤ c.toNat && c.toNat ≤ 57

/-- ASCII whitespace test, by code point (space, tab, CR, LF). -/
def isWhitespaceChar (c : Char) : Bool :=
  c.toNat = 32 || c.toNat = 9 || c.toNat = 13 || c.toNat = 10

/-- Character class of identifier start characters: an ASCII letter or
underscore, by code point. -/
def identStartChar (c : Char) : Bool :=
  (65 ≤ c.toNat && c.toNat ≤ 90) || (97 ≤ c.toNat && c.toNat ≤ 122) || c.toNat = 95

/-- Character class of identifier continuation characters: a letter,
digit or underscore. -/
def identChar (c : Char) : Bool := identStartChar c || isDigitChar c

/-- The single-quote character (written by code point to keep the file
free of apostrophe literals). -/
def squoteChar : Char := Char.ofNat 39

/-- Partial-token state of the scanner between two characters. `inStr`
holds the opening quote (spec section 4.1: the closing delimiter must
match it) and the interior characters read so far; `failed` absorbs a
lexical error. -/
inductive LexMode where
  | start
  | inInt (ds : List Char)
  | intDot (ds : List Char)
  | inFloat (ds fs : List Char)
  | inIdent (cs : List Char)
  | inStr (q : Char) (cs : List Char)
  | pendingEq | pendingBang | pendingLt | pendingGt | pendingAmp | pendingPipe | pendingDot
  | failed (e : Error)
deriving DecidableEq

/-- Scanner dispatch on a character from the neutral state: emitted tokens
plus the successor mode. -/
def startChar (c : Char) : List Token × LexMode :=
  if isWhitespaceChar c then ([], .start)
  else if isDigitChar c then ([], .inInt [c])
  else if identStartChar c then ([], .inIdent [c])
  else if c = '"' then ([], .inStr '"' [])
  else if c = squoteChar then ([], .inStr squoteChar [])
  else if c = '=' then ([], .pendingEq)
  else if c = '!' then ([], .pendingBang)
  else if c = '<' then ([], .pendingLt)
  else if c = '>' then ([], .pendingGt)
  else if c = '&' then ([], .pendingAmp)
  else if c = '|' then ([], .pendingPipe)
  else if c = '.' then ([], .pendingDot)
  else if c = '+' then ([.plus], .start)
  else if c = '-' then ([.minus], .start)
  else if c = '*' then ([.star], .start)
  else if c = '/' then ([.slash], .start)
  else if c = '%' then ([.percent], .start)
  else if c = '(' then ([.lparen], .start)
  else if c = ')' then ([.rparen], .start)
  else if c = '[' then ([.lbracket], .start)
  else if c = ']' then ([.rbracket], .start)
  else if c = ',' then ([.comma], .start)
  else ([], .failed (.UnexpectedCharacter c))

/-- Finish a pending partial token and then dispatch the new character. -/
def flushThen (flushed : List Token) (c : Char) : List Token × LexMode :=
  let (emitted, m) := startChar c
  (flushed ++ emitted, m)

/-- One scanner step: tokens emitted by this character and the new mode. -/
def stepCore : LexMode → Char → List Token × LexMode
  | .start, c => startChar c
  | .inInt ds, c =>
    if isDigitChar c then ([], .inInt (ds ++ [c]))
    else if c = '.' then ([], .intDot ds)
    else flushThen [.intLit (natVal ds : Int)] c
  | .intDot ds, c =>
    if isDigitChar c then ([], .inFloat ds [c])
    else if c = '.' then ([.intLit (natVal ds : Int), .rangedots], .start)
    else flushThen [.intLit (natVal ds : Int), .dot] c
  | .inFloat ds fs, c =>
    if isDigitChar c then ([], .inFloat ds (fs ++ [c]))
    else flushThen [.floatLit (floatVal ds fs)] c
  | .inIdent cs, c =>
    if identChar c then ([], .inIdent (cs ++ [c]))
    else flushThen [identToken cs] c
  | .inStr q cs, c =>
    if c = q then ([.strLit (String.mk cs)], .start)
    else ([], .inStr q (cs ++ [c]))
  | .pendingEq, c =>
    if c = '=' then ([.eq], .start) else ([], .failed (.UnexpectedCharacter '='))
  | .pendingBang, c =>
    if c = '=' then ([.neq], .start) else flushThen [.bang] c
  | .pendingLt, c =>
    if c = '=' then ([.leq], .start) else flushThen [.lt] c
  | .pendingGt, c =>
    if c = '=' then ([.geq], .start) else flushThen [.gt] c
  | .pendingAmp, c =>
    if c = '&' then ([.and], .start) else ([], .failed (.UnexpectedCharacter '&'))
  | .pendingPipe, c =>
    if c = '|' then ([.or], .start) else ([], .failed (.UnexpectedCharacter '|'))
  | .pendingDot, c =>
    if c = '.' then ([.rangedots], .start) else flushThen [.dot] c
  | .failed e, _ => ([], .failed e)

/-- Scanner state: tokens emitted so far plus the current mode. -/
def lexStep (st : List Token × LexMode) (c : Char) : List Token × LexMode :=
  (st.1 ++ (stepCore st.2 c).1, (stepCore st.2 c).2)

/-- Finish the scan: flush whatever partial token remains at end of input. -/
def flushMode : LexMode → Except Error (List Token)
  | .start => .ok []
  | .inInt ds => .ok [.intLit (natVal ds : Int)]
  | .intDot ds => .ok [.intLit (natVal ds : Int), .dot]
  | .inFloat ds fs => .ok [.floatLit (floatVal ds fs)]
  | .inIdent cs => .ok [identToken cs]
  | .inStr _ _ => .error .UnmatchedQuote
  | .pendingEq => .error (.UnexpectedCharacter '=')
  | .pendingBang => .ok [.bang]
  | .pendingLt => .ok [.lt]
  | .pendingGt => .ok [.gt]
  | .pendingAmp => .error (.UnexpectedCharacter '&')
  | .pendingPipe => .error (.UnexpectedCharacter '|')
  | .pendingDot => .ok [.dot]
  | .failed e => .error e

/-- Modelled from the spec (section 4.1): `tokenize(text)`. -/
def tokenize (s : String) : Except Error (List Token) :=
  let st := s.data.foldl lexStep ([], .start)
  match flushMode st.2 with
  | .ok flushed => .ok (st.1 ++ flushed)
  | .error e => .error e

example : tokenize "1+3" = .ok [.intLit 1, .plus, .intLit 3] := by decide
example : tokenize "5 / 4.25" =
    .ok [.intLit 5, .slash, .floatLit (mkRat 425 100)] := by decide
example : tokenize "0..5" = .ok [.intLit 0, .rangedots, .intLit 5] := by decide
example : tokenize "true && x_1" =
    .ok [.boolLit true, .and, .ident "x_1"] := by decide
example : tokenize "a <= b == c" =
    .ok [.ident "a", .leq, .ident "b", .eq, .ident "c"] := by decide
example : tokenize "!(()true)" =
    .ok [.bang, .lparen, .lparen, .rparen, .boolLit true, .rparen] := by decide
example : tokenize "2 ? 3" = .error (.UnexpectedCharacter '?') := by decide
example : tokenize "\"Hello\"" = .ok [.strLit "Hello"] := by decide
example : tokenize (String.mk [squoteChar, 'H', 'i', squoteChar]) =
    .ok [.strLit "Hi"] := by decide
example : tokenize "\"a b\" == \"a b\"" =
    .ok [.strLit "a b", .eq, .strLit "a b"] := by decide
example : tokenize (String.mk ['"', 'a', squoteChar, 'b', '"']) =
    .ok [.strLit (String.mk ['a', squoteChar, 'b'])] := by decide
example : tokenize "\"abc" = .error .UnmatchedQuote := by decide
example : tokenize (String.mk [squoteChar, 'a', '"']) = .error .UnmatchedQuote := by decide
example : tokenize "a.b, c[0]" =
    .ok [.ident "a", .dot, .ident "b", .comma, .ident "c",
      .lbracket, .intLit 0, .rbracket] := by decide

/-! ## Operator and Node

Modelled from the spec (sections 3, 4.2): the closed enumeration of node
discriminants with their binding strengths, associativity and fixed child
counts, and the operator tree. Binding strengths, loosest to tightest,
follow spec section 4.2: comma-separated argument lists (`sep`) < `||` <
`&&` < comparisons < `..` (range) < additive < multiplicative < unary <
postfix member/index chains < function application < literals and
parenthesized groups. `member` carries its field name (spec section 3:
one child for a member-access root); `index` is binary (base and index
expression); `sep` is the comma of an argument list, torn back into the
surrounding list when its parenthesized group is closed. -/

inductive Operator where
  | rootNode
  | add | sub | mul | div | mod
  | neg | not
  | lt | gt | leq | geq | eq | neq
  | and | or
  | range
  | sep
  | index
  | member (field : String)
  | const (v : Value)
  | variableIdentifier (name : String)
  | functionIdentifier (name : String)
deriving DecidableEq

/-- Modelled from the spec (section 4.2): operator binding strength. -/
def Operator.precedence : Operator → Nat
  | .rootNode | .const _ | .variableIdentifier _ => 200
  | .functionIdentifier _ => 190
  | .index | .member _ => 120
  | .neg | .not => 110
  | .mul | .div | .mod => 100
  | .add | .sub => 95
  | .range => 85
  | .lt | .gt | .leq | .geq | .eq | .neq => 80
  | .and => 75
  | .or => 70
  | .sep => 40

/-- Modelled from the spec (section 4.2): all binary operators are
left-associative; unary prefix operators chain right-to-left, and a
juxtaposed function identifier binds its argument to the right. -/
def Operator.isLeftToRight : Operator → Bool
  | .neg | .not | .functionIdentifier _ => false
  | _ => true

/-- Modelled from the spec (section 3): the fixed child count of each
discriminant. -/
def Operator.argumentAmount : Operator → Nat
  | .const _ | .variableIdentifier _ => 0
  | .rootNode | .neg | .not | .functionIdentifier _ | .member _ => 1
  | _ => 2

/-- A leaf discriminant takes no children. -/
def Operator.isLeaf (op : Operator) : Bool := op.argumentAmount == 0

/-- Modelled from the spec (section 3): a tree node holding a discriminant
and its ordered owned children. -/
inductive Node where
  | mk (operator : Operator) (children : List Node)

/-- The discriminant of a node. -/
def Node.operator : Node → Operator
  | .mk op _ => op

/-- The children of a node. -/
def Node.children : Node → List Node
  | .mk _ cs => cs

mutual

def Node.beq : Node → Node → Bool
  | .mk op cs, .mk op2 cs2 => op == op2 && Node.beqList cs cs2

def Node.beqList : List Node → List Node → Bool
  | [], [] => true
  | a :: as_, b :: bs => Node.beq a b && Node.beqList as_ bs
  | _, _ => false

end

mutual

theorem nodeBeq_iff : ∀ a b : Node, Node.beq a b = true ↔ a = b
  | .mk op cs, .mk op2 cs2 => by
    simp only [Node.beq, Bool.and_eq_true, beq_iff_eq, Node.mk.injEq]
    exact and_congr Iff.rfl (nodeBeqList_iff cs cs2)

theorem nodeBeqList_iff : ∀ a b : List Node, Node.beqList a b = true ↔ a = b
  | [], [] => by simp [Node.beqList]
  | [], _ :: _ => by simp [Node.beqList]
  | _ :: _, [] => by simp [Node.beqList]
  | a :: as_, b :: bs => by
    simp only [Node.beqList, Bool.and_eq_true, List.cons.injEq]
    exact and_congr (nodeBeq_iff a b) (nodeBeqList_iff as_ bs)

end

instance : DecidableEq Node := fun a b => decidable_of_iff _ (nodeBeq_iff a b)

/-- The left-spine comma chain of a node as a list: a `sep` node built
from `a, b, ...` lists its comma-separated operands in order, and any
other node is the one-element list of itself. -/
def sepFlatten : Node → List Node
  | .mk .sep [a, b] => sepFlatten a ++ [b]
  | n => [n]

/-- Modelled from the spec (section 4.2): when a parenthesized group
closes, a comma chain built inside it becomes the group's child list —
this is what turns `name(arg1, arg2, ...)` into a call node carrying one
argument node per comma-separated operand. A group without a comma chain
is unchanged. -/
def flattenGroup : Node → Node
  | .mk .rootNode [g] => .mk .rootNode (sepFlatten g)
  | n => n

/-! ## Tree builder

Modelled from the spec (section 4.2) under the behavior fixed by the
repository's unit tests: tokens are inserted one by one into the tree
under construction, descending along the right spine as long as the
new node binds tighter than (or chains right-associatively with) the
node there, and otherwise rotating the last child beneath the new node.
Parentheses (and the index brackets, which open a fresh sub-expression
for the index) push/pop roots of an auxiliary stack; a popped group is
kept wrapped in its `rootNode` (evaluating transparently to its child)
after its comma chain, if any, is flattened into the group's child list.
Child counts are checked at evaluation time, which is what makes a
trailing binary operator surface as `WrongArgumentAmount` (test line
338) and a value appended to a saturated group surface as
`AppendedToLeafNode` (test line 339). -/

/-- Whether insertion descends into the current last child `last` rather
than rotating it beneath the incoming node. -/
def descend (last node : Operator) : Bool :=
  last.precedence < node.precedence
    || (last.precedence == node.precedence && !last.isLeftToRight && !node.isLeftToRight)

mutual

/-- Modelled from the spec (section 4.2), pinned by the unit tests:
priority-directed insertion of `node` at the back of the tree `self`.
The Rust original re-checks its own precondition on self with an
`is_root_node` escape; the check is redundant (true at the root call and
implied by `descend` at recursive calls) and is dropped here. -/
def insertBack : Node → Node → Except Error Node
  | .mk op cs, node =>
    if op.isLeaf then .error .AppendedToLeafNode
    else if op.argumentAmount ≤ cs.length then
      match cs.getLast? with
      | some last =>
        if descend last.operator node.operator then do
          let cs' ← insertLastList cs node
          pure (.mk op cs')
        else if node.operator.isLeaf then .error .AppendedToLeafNode
        else pure (.mk op (cs.dropLast ++ [Node.mk node.operator (node.children ++ [last])]))
      | none => .error .EmptyExpression
    else pure (.mk op (cs ++ [node]))

/-- Insertion into the last element of a child list. -/
def insertLastList : List Node → Node → Except Error (List Node)
  | [], _ => .ok []
  | [c], node => do
    let c' ← insertBack c node
    pure [c']
  | c :: c2 :: cs, node => do
    let rest ← insertLastList (c2 :: cs) node
    pure (c :: rest)

end

/-- Insert a node into the top stack entry. -/
def insertTop : List Node → Node → Except Error (List Node)
  | top :: rest, node => do
    let top' ← insertBack top node
    pure (top' :: rest)
  | [], _ => .error .EmptyExpression

/-- Modelled from the spec (section 4.2): a `-` token is unary negation
exactly when the previous token cannot end a value (or there is none). -/
def minusIsUnary : Option Token → Bool
  | none => true
  | some t => !t.isRightsidedValue

/-- Whether the (optional) next token can start a value; `none` cannot. -/
def optLeftsided : Option Token → Bool
  | none => false
  | some t => t.isLeftsidedValue

/-- Whether the previous token is the member-access dot; the identifier
right after a dot is the field name consumed by the dot itself, not a
variable reference. -/
def prevIsDot : Option Token → Bool
  | some .dot => true
  | _ => false

/-- The field name a member-access dot consumes: the identifier right
after it, if any (spec section 4.2: `.identifier`). -/
def nextFieldName : Option Token → Option String
  | some (.ident f) => some f
  | _ => none

/-- One builder step for token `t`, given the previous and next tokens
(for unary/binary `-` disambiguation and function-identifier detection)
and the current stack of roots. -/
def buildStep (prev next : Option Token) (t : Token) (stack : List Node) :
    Except Error (List Node) :=
  match t with
  | .intLit n => insertTop stack (Node.mk (.const (.int n)) [])
  | .floatLit q => insertTop stack (Node.mk (.const (.float q)) [])
  | .boolLit b => insertTop stack (Node.mk (.const (.boolean b)) [])
  | .strLit s => insertTop stack (Node.mk (.const (.string s)) [])
  | .ident name =>
    if prevIsDot prev then .ok stack
    else if optLeftsided next then insertTop stack (Node.mk (.functionIdentifier name) [])
    else insertTop stack (Node.mk (.variableIdentifier name) [])
  | .plus => insertTop stack (Node.mk .add [])
  | .minus =>
    if minusIsUnary prev then insertTop stack (Node.mk .neg [])
    else insertTop stack (Node.mk .sub [])
  | .star => insertTop stack (Node.mk .mul [])
  | .slash => insertTop stack (Node.mk .div [])
  | .percent => insertTop stack (Node.mk .mod [])
  | .eq => insertTop stack (Node.mk .eq [])
  | .neq => insertTop stack (Node.mk .neq [])
  | .lt => insertTop stack (Node.mk .lt [])
  | .gt => insertTop stack (Node.mk .gt [])
  | .leq => insertTop stack (Node.mk .leq [])
  | .geq => insertTop stack (Node.mk .geq [])
  | .and => insertTop stack (Node.mk .and [])
  | .or => insertTop stack (Node.mk .or [])
  | .bang => insertTop stack (Node.mk .not [])
  | .rangedots => insertTop stack (Node.mk .range [])
  | .comma => insertTop stack (Node.mk .sep [])
  | .dot =>
    match nextFieldName next with
    | some f => insertTop stack (Node.mk (.member f) [])
    | none => .error .UnexpectedToken
  | .lparen => .ok (Node.mk .rootNode [] :: stack)
  | .lbracket => do
    let stack' ← insertTop stack (Node.mk .index [])
    pure (Node.mk .rootNode [] :: stack')
  | .rparen =>
    match stack with
    | inner :: outer :: rest => do
      let outer' ← insertBack outer (flattenGroup inner)
      pure (outer' :: rest)
    | _ => .error .UnexpectedToken
  | .rbracket =>
    match stack with
    | inner :: outer :: rest => do
      let outer' ← insertBack outer (flattenGroup inner)
      pure (outer' :: rest)
    | _ => .error .UnexpectedToken

/-- Fold of `buildStep` over the token list, carrying the previous token
and using one-token lookahead. -/
def runBuild : Option Token → List Token → List Node → Except Error (List Node)
  | _, [], stack => .ok stack
  | prev, t :: ts, stack => do
    let stack' ← buildStep prev ts.head? t stack
    runBuild (some t) ts stack'

/-- Extract the finished tree from the final stack: exactly one root with
exactly one child. A deeper stack means an unclosed parenthesis. -/
def finalizeBuild : List Node → Except Error Node
  | [root] =>
    match root with
    | Node.mk _ [c] => pure c
    | Node.mk _ [] => .error .EmptyExpression
    | _ => .error .UnexpectedToken
  | _ => .error .MissingClosingBracket

/-- Modelled from the spec (section 4.2): `tokens_to_operator_tree`,
the tree-builder entry point of the `tree` module. -/
def tokens_to_operator_tree (tokens : List Token) : Except Error Node := do
  let final ← runBuild none tokens [Node.mk .rootNode []]
  finalizeBuild final

example : tokens_to_operator_tree [.intLit 3, .plus, .intLit 1, .star, .intLit 5] =
    .ok (.mk .add [.mk (.const (.int 3)) [],
      .mk .mul [.mk (.const (.int 1)) [], .mk (.const (.int 5)) []]]) := by decide

example : tokens_to_operator_tree [.boolLit true, .minus] =
    .ok (.mk .sub [.mk (.const (.boolean true)) []]) := by decide

example : tokens_to_operator_tree
      [.bang, .lparen, .lparen, .rparen, .boolLit true, .rparen] =
    .error .AppendedToLeafNode := by decide

/-! ## Evaluator

Modelled from the spec (section 4.3): recursive reduction of a node tree
to a `Value` against a `Configuration`. The child count of every node is
checked against its discriminant's fixed arity before the node is
interpreted; integer pairs use truncating division/remainder, and an
integer paired with a float is promoted, operation by operation. -/

/-- Numeric binary operation with the spec's promotion rule. The right
operand of a numeric pair is reported when it is not numeric, matching
the unit test for `1-true`. -/
def numericBinary (intf : Int → Int → Int) (ratf : Rat → Rat → Rat) :
    Value → Value → Except Error Value
  | .int a, .int b => .ok (.int (intf a b))
  | .int a, .float q => .ok (.float (ratf (ratOfInt a) q))
  | .float p, .int b => .ok (.float (ratf p (ratOfInt b)))
  | .float p, .float q => .ok (.float (ratf p q))
  | .int _, v => .error (.ExpectedNumber v)
  | .float _, v => .error (.ExpectedNumber v)
  | v, _ => .error (.ExpectedNumber v)

/-- Numeric comparison with the spec's promotion rule. -/
def numericCompare (f : Rat → Rat → Bool) : Value → Value → Except Error Value
  | .int a, .int b => .ok (.boolean (f (ratOfInt a) (ratOfInt b)))
  | .int a, .float q => .ok (.boolean (f (ratOfInt a) q))
  | .float p, .int b => .ok (.boolean (f p (ratOfInt b)))
  | .float p, .float q => .ok (.boolean (f p q))
  | .int _, v => .error (.ExpectedNumber v)
  | .float _, v => .error (.ExpectedNumber v)
  | v, _ => .error (.ExpectedNumber v)

/-- Boolean binary operation; a non-Boolean operand is an error carrying
the offending value (left operand reported first). -/
def booleanBinary (f : Bool → Bool → Bool) : Value → Value → Except Error Value
  | .boolean a, .boolean b => .ok (.boolean (f a b))
  | .boolean _, v => .error (.ExpectedBoolean v)
  | v, _ => .error (.ExpectedBoolean v)

mutual

/-- Modelled from the spec (section 4.3): the `==`/`!=` relation. An
integer and a float compare numerically after promotion; any other
cross-variant pair is simply unequal, never an error. -/
def valueEq : Value → Value → Bool
  | .int a, .int b => a == b
  | .int a, .float q => ratOfInt a == q
  | .float p, .int b => p == ratOfInt b
  | .float p, .float q => p == q
  | .boolean a, .boolean b => a == b
  | .string a, .string b => a == b
  | .array a, .array b => valueListEq a b
  | _, _ => false

/-- Element-wise `valueEq` on arrays. -/
def valueListEq : List Value → List Value → Bool
  | [], [] => true
  | a :: as_, b :: bs => valueEq a b && valueListEq as_ bs
  | _, _ => false

end

/-- Modelled from the spec (section 4.3): unary negation on numbers. -/
def negValue : Value → Except Error Value
  | .int a => .ok (.int (-a))
  | .float q => .ok (.float (ratNeg q))
  | v => .error (.ExpectedNumber v)

/-- Modelled from the spec (section 4.3): logical not on Booleans. -/
def notValue : Value → Except Error Value
  | .boolean b => .ok (.boolean (!b))
  | v => .error (.ExpectedBoolean v)

/-- The ascending list of integers from `a` up to but excluding `b`. -/
def intRangeInts (a b : Int) : List Int :=
  (List.range (b - a).toNat).map (fun i : Nat => a + (i : Int))

/-- The same list as `Value`s, as materialized by a range node. -/
def intRangeList (a b : Int) : List Value :=
  (intRangeInts a b).map Value.int

/-- Modelled from the spec (section 4.3): range materialization. Both
bounds must be integers; a lower bound not below the upper yields the
empty array. -/
def rangeValues : Value → Value → Except Error Value
  | .int a, .int b => .ok (.array (intRangeList a b))
  | .int _, v => .error (.ExpectedNumber v)
  | v, _ => .error (.ExpectedNumber v)

/-- Modelled from the spec (section 4.3): index access. The base must be
an Array and the index an Integer; the element at the 0-based position
is returned, and a negative or out-of-range index is an
`IndexOutOfBounds` error, never wraparound. A non-Integer index is an
expected-number error; a non-Array base is reported as
`IndexOutOfBounds` (the spec names no dedicated variant for it, and no
test pins the choice). -/
def indexValues : Value → Value → Except Error Value
  | .array xs, .int i =>
    if 0 ≤ i then
      match xs[i.toNat]? with
      | some v => .ok v
      | none => .error .IndexOutOfBounds
    else .error .IndexOutOfBounds
  | .array _, v => .error (.ExpectedNumber v)
  | _, _ => .error .IndexOutOfBounds

/-- Modelled from the spec (section 4.3): function invocation after the
arguments are evaluated — name lookup, arity check against the declared
argument amount, then the host body. -/
def callFunction (cfg : Configuration) (name : String) (args : List Value) :
    Except Error Value :=
  match cfg.get_function name with
  | none => .error (.FunctionIdentifierNotFound name)
  | some f =>
    if args.length = f.argument_amount then f.function args
    else .error (.WrongArgumentAmount args.length f.argument_amount)

mutual

/-- Modelled from the spec (section 4.3): `Node::eval`. The child count is
checked against the discriminant's arity first (this is where a
malformed tree such as the one built from `true-` fails with
`WrongArgumentAmount`). A parenthesized group's `rootNode` wrapper
evaluates transparently to its single child. A function node's argument
list is its wrapped group's children for a parenthesized call, or its
single juxtaposed child. Member access evaluates its base and then
fails with `FieldNotFound`: spec section 4.3 defines named fields only
for host-defined structured values, and the closed `Value` union of
section 3 has no field-bearing variant, so no field ever resolves. A
comma chain (`sep`) outside an argument list is an `UnexpectedToken`
error when reached. -/
def evalNode (cfg : Configuration) : Node → Except Error Value
  | .mk op cs =>
    if cs.length = op.argumentAmount then
      match op, cs with
      | .const v, _ => .ok v
      | .variableIdentifier name, _ =>
        match cfg.get_variable name with
        | some v => .ok v
        | none => .error (.VariableIdentifierNotFound name)
      | .rootNode, [c] => evalNode cfg c
      | .neg, [c] => do
        let v ← evalNode cfg c
        negValue v
      | .not, [c] => do
        let v ← evalNode cfg c
        notValue v
      | .add, [a, b] => do
        let va ← evalNode cfg a
        let vb ← evalNode cfg b
        numericBinary (· + ·) ratAdd va vb
      | .sub, [a, b] => do
        let va ← evalNode cfg a
        let vb ← evalNode cfg b
        numericBinary (· - ·) ratSub va vb
      | .mul, [a, b] => do
        let va ← evalNode cfg a
        let vb ← evalNode cfg b
        numericBinary (· * ·) ratMul va vb
      | .div, [a, b] => do
        let va ← evalNode cfg a
        let vb ← evalNode cfg b
        numericBinary Int.tdiv ratDiv va vb
      | .mod, [a, b] => do
        let va ← evalNode cfg a
        let vb ← evalNode cfg b
        numericBinary Int.tmod ratMod va vb
      | .lt, [a, b] => do
        let va ← evalNode cfg a
        let vb ← evalNode cfg b
        numericCompare ratLtb va vb
      | .gt, [a, b] => do
        let va ← evalNode cfg a
        let vb ← evalNode cfg b
        numericCompare (fun p q => ratLtb q p) va vb
      | .leq, [a, b] => do
        let va ← evalNode cfg a
        let vb ← evalNode cfg b
        numericCompare ratLeb va vb
      | .geq, [a, b] => do
        let va ← evalNode cfg a
        let vb ← evalNode cfg b
        numericCompare (fun p q => ratLeb q p) va vb
      | .eq, [a, b] => do
        let va ← evalNode cfg a
        let vb ← evalNode cfg b
        pure (.boolean (valueEq va vb))
      | .neq, [a, b] => do
        let va ← evalNode cfg a
        let vb ← evalNode cfg b
        pure (.boolean (!valueEq va vb))
      | .and, [a, b] => do
        let va ← evalNode cfg a
        let vb ← evalNode cfg b
        booleanBinary (· && ·) va vb
      | .or, [a, b] => do
        let va ← evalNode cfg a
        let vb ← evalNode cfg b
        booleanBinary (· || ·) va vb
      | .range, [a, b] => do
        let va ← evalNode cfg a
        let vb ← evalNode cfg b
        rangeValues va vb
      | .index, [a, b] => do
        let va ← evalNode cfg a
        let vb ← evalNode cfg b
        indexValues va vb
      | .member f, [c] => do
        let _v ← evalNode cfg c
        Except.error (Error.FieldNotFound f)
      | .sep, [_, _] => .error .UnexpectedToken
      | .functionIdentifier name, [arg] =>
        match arg with
        | .mk .rootNode gs => do
          let args ← evalList cfg gs
          callFunction cfg name args
        | other => do
          let v ← evalNode cfg other
          callFunction cfg name [v]
      | _, _ => .error .EmptyExpression
    else .error (.WrongArgumentAmount cs.length op.argumentAmount)

/-- Left-to-right evaluation of a list of nodes. -/
def evalList (cfg : Configuration) : List Node → Except Error (List Value)
  | [] => .ok []
  | n :: ns => do
    let v ← evalNode cfg n
    let vs ← evalList cfg ns
    pure (v :: vs)

end

/-- Source `lib.rs`: `Node::eval(&self, configuration)`. -/
def Node.eval (n : Node) (cfg : Configuration) : Except Error Value :=
  evalNode cfg n

/-- Source `lib.rs` line 144: the zero-context pipeline entry point. -/
def eval (s : String) : Except Error Value := do
  let ts ← tokenize s
  let tree ← tokens_to_operator_tree ts
  tree.eval EmptyConfiguration

/-- Source `lib.rs` line 148: the pipeline entry point with a caller
configuration. -/
def eval_with_configuration (s : String) (cfg : Configuration) : Except Error Value := do
  let ts ← tokenize s
  let tree ← tokens_to_operator_tree ts
  tree.eval cfg

/-- Source `lib.rs` line 155: tokenize and build without evaluating. -/
def build_operator_tree (s : String) : Except Error Node := do
  let ts ← tokenize s
  tokens_to_operator_tree ts

/-! ## Validation against the repository's unit tests

Every assertion of the `lib.rs` test module, checked against the model by
kernel evaluation. Floats are written as `mkRat` values (`3.3` is 33/10,
and so on). -/

example : eval "3" = .ok (.int 3) := by decide
example : eval "3.3" = .ok (.float (mkRat 33 10)) := by decide
example : eval "true" = .ok (.boolean true) := by decide
example : eval "false" = .ok (.boolean false) := by decide
example : eval "blub" = .error (.VariableIdentifierNotFound "blub") := by decide
example : eval "-3" = .ok (.int (-3)) := by decide
example : eval "-3.6" = .ok (.float (mkRat (-36) 10)) := by decide
example : eval "----3" = .ok (.int 3) := by decide

example : eval "1+3" = .ok (.int 4) := by decide
example : eval "3+1" = .ok (.int 4) := by decide
example : eval "3-5" = .ok (.int (-2)) := by decide
example : eval "5-3" = .ok (.int 2) := by decide
example : eval "5 / 4" = .ok (.int 1) := by decide
example : eval "5 *3" = .ok (.int 15) := by decide
example : eval "1.0+3" = .ok (.float (mkRat 4 1)) := by decide
example : eval "3.0+1" = .ok (.float (mkRat 4 1)) := by decide
example : eval "3-5.0" = .ok (.float (mkRat (-2) 1)) := by decide
example : eval "5-3.0" = .ok (.float (mkRat 2 1)) := by decide
example : eval "5 / 4.0" = .ok (.float (mkRat 125 100)) := by decide
example : eval "5.0 *3" = .ok (.float (mkRat 15 1)) := by decide
example : eval "5.0 *-3" = .ok (.float (mkRat (-15) 1)) := by decide
example : eval "5.0 *- 3" = .ok (.float (mkRat (-15) 1)) := by decide
example : eval "5.0 * -3" = .ok (.float (mkRat (-15) 1)) := by decide
example : eval "5.0 * - 3" = .ok (.float (mkRat (-15) 1)) := by decide
example : eval "-5.0 *-3" = .ok (.float (mkRat 15 1)) := by decide
example : eval "3+-1" = .ok (.int 2) := by decide
example : eval "-3-5" = .ok (.int (-8)) := by decide
example : eval "-5--3" = .ok (.int (-2)) := by decide

example : eval "1+3-2" = .ok (.int 2) := by decide
example : eval "3+1*5" = .ok (.int 8) := by decide
example : eval "2*3-5" = .ok (.int 1) := by decide
example : eval "5-3/3" = .ok (.int 4) := by decide
example : eval "5 / 4*2" = .ok (.int 2) := by decide
example : eval "1-5 *3/15" = .ok (.int 0) := by decide
example : eval "15/7/2.0" = .ok (.float (mkRat 1 1)) := by decide
example : eval "15.0/7/2" = .ok (.float (mkRat 15 14)) := by decide
example : eval "15.0/-7/2" = .ok (.float (mkRat (-15) 14)) := by decide
example : eval "-15.0/7/2" = .ok (.float (mkRat (-15) 14)) := by decide
example : eval "-15.0/7/-2" = .ok (.float (mkRat 15 14)) := by decide

example : eval "(1)" = .ok (.int 1) := by decide
example : eval "( 1.0 )" = .ok (.float (mkRat 1 1)) := by decide
example : eval "( true)" = .ok (.boolean true) := by decide
example : eval "( -1 )" = .ok (.int (-1)) := by decide
example : eval "-(1)" = .ok (.int (-1)) := by decide
example : eval "-(1 + 3) * 7" = .ok (.int (-28)) := by decide
example : eval "(1 * 1) - 3" = .ok (.int (-2)) := by decide
example : eval "4 / (2 * 2)" = .ok (.int 1) := by decide
example : eval "7/(7/(7/(7/(7/(7)))))" = .ok (.int 1) := by decide

example : eval "1 % 4" = .ok (.int 1) := by decide
example : eval "6 % 4" = .ok (.int 2) := by decide
example : eval "1 % 4 + 2" = .ok (.int 3) := by decide

example : eval "true && false" = .ok (.boolean false) := by decide
example : eval "true && false || true && true" = .ok (.boolean true) := by decide
example : eval "5 > 4 && 1 <= 1" = .ok (.boolean true) := by decide
example : eval "5.0 <= 4.9 || !(4 > 3.5)" = .ok (.boolean false) := by decide

/-- The configuration built in the `test_with_configuration` unit test. -/
def testConfiguration : Configuration :=
  { get_variable := fun name =>
      if name = "tr" then some (.boolean true)
      else if name = "fa" then some (.boolean false)
      else if name = "five" then some (.int 5)
      else if name = "six" then some (.int 6)
      else if name = "half" then some (.float (mkRat 5 10))
      else if name = "zero" then some (.int 0)
      else none
    get_function := fun _ => none }

example : eval_with_configuration "tr" testConfiguration = .ok (.boolean true) := by decide
example : eval_with_configuration "fa" testConfiguration = .ok (.boolean false) := by decide
example : eval_with_configuration "tr && false" testConfiguration =
    .ok (.boolean false) := by decide
example : eval_with_configuration "five + six" testConfiguration = .ok (.int 11) := by decide
example : eval_with_configuration "five * half" testConfiguration =
    .ok (.float (mkRat 25 10)) := by decide
example : eval_with_configuration "five < six && true" testConfiguration =
    .ok (.boolean true) := by decide

/-- The configuration built in the `test_functions` unit test: `sub2`
subtracts two from an integer argument, and `five` holds 5. -/
def functionTestConfiguration : Configuration :=
  { get_variable := fun name => if name = "five" then some (.int 5) else none
    get_function := fun name =>
      if name = "sub2" then
        some { argument_amount := 1
               function := fun args =>
                 match args with
                 | .int n :: _ => .ok (.int (n - 2))
                 | v :: _ => .error (Error.expected_number v)
                 | [] => .error (Error.wrong_argument_amount 0 1) }
      else none }

example : eval_with_configuration "sub2 5" functionTestConfiguration =
    .ok (.int 3) := by decide
example : eval_with_configuration "sub2(5)" functionTestConfiguration =
    .ok (.int 3) := by decide
example : eval_with_configuration "sub2 five" functionTestConfiguration =
    .ok (.int 3) := by decide
example : eval_with_configuration "sub2(five)" functionTestConfiguration =
    .ok (.int 3) := by decide
example : eval_with_configuration "sub2(3) + five" functionTestConfiguration =
    .ok (.int 6) := by decide

example : eval "-true" = .error (Error.expected_number (.boolean true)) := by decide
example : eval "1-true" = .error (Error.expected_number (.boolean true)) := by decide
example : eval "true-" = .error (Error.wrong_argument_amount 1 2) := by decide
example : eval "!(()true)" = .error .AppendedToLeafNode := by decide

/-! Range materialization, per the `lib.rs` doc examples (lines 116-119)
and spec section 4.3. -/

example : eval "0..5" =
    .ok (.array [.int 0, .int 1, .int 2, .int 3, .int 4]) := by decide
example : eval "5..5" = .ok (.array []) := by decide

/-! String literals (spec section 4.1), member/index access (spec
sections 4.2 and 4.3) and comma-separated argument lists (spec section
4.2), exercised through the full pipeline. -/

example : eval "\"Hello\"" = .ok (.string "Hello") := by decide
example : eval (String.mk [squoteChar, 'H', 'i', squoteChar]) =
    .ok (.string "Hi") := by decide
example : eval "\"ab\" == \"ab\"" = .ok (.boolean true) := by decide
example : eval "\"ab\" != \"ba\"" = .ok (.boolean true) := by decide
example : eval "\"ab\" == 1" = .ok (.boolean false) := by decide
example : eval "\"abc" = .error .UnmatchedQuote := by decide
example : eval "-\"a\"" = .error (.ExpectedNumber (.string "a")) := by decide

example : eval "(0..3)[2]" = .ok (.int 2) := by decide
example : eval "(0..3)[0]" = .ok (.int 0) := by decide
example : eval "(0..3)[1+1]" = .ok (.int 2) := by decide
example : eval "(0..3)[3]" = .error .IndexOutOfBounds := by decide
example : eval "(0..3)[-1]" = .error .IndexOutOfBounds := by decide
example : eval "(0..3)[true]" =
    .error (.ExpectedNumber (.boolean true)) := by decide
example : eval "-(0..2)[1]" = .ok (.int (-1)) := by decide

example : eval "(0..3).foo" = .error (.FieldNotFound "foo") := by decide
example : eval_with_configuration "five.foo" testConfiguration =
    .error (.FieldNotFound "foo") := by decide
example : eval "blub.foo" =
    .error (.VariableIdentifierNotFound "blub") := by decide

example : eval "1, 2" = .error .UnexpectedToken := by decide
example : eval "(1, 2)" = .error (.WrongArgumentAmount 2 1) := by decide

/-! Spec section 4.2: chains compose left to right — `object.foos[1-1]`
parses as index(member(object, "foos"), subtract(1, 1)), the index
expression carried in its transparent group wrapper. -/

example : build_operator_tree "object.foos[1-1]" =
    .ok (.mk .index [.mk (.member "foos") [.mk (.variableIdentifier "object") []],
      .mk .rootNode [.mk .sub [.mk (.const (.int 1)) [],
        .mk (.const (.int 1)) []]]]) := by decide

/-- A configuration with a two-argument function, for exercising
comma-separated argument lists end to end. -/
def pairTestConfiguration : Configuration :=
  { get_variable := fun name => if name = "five" then some (.int 5) else none
    get_function := fun name =>
      if name = "plus2" then
        some { argument_amount := 2
               function := fun args =>
                 match args with
                 | [.int a, .int b] => .ok (.int (a + b))
                 | _ => .error .UnexpectedToken }
      else none }

example : eval_with_configuration "plus2(3, 4)" pairTestConfiguration =
    .ok (.int 7) := by decide
example : eval_with_configuration "plus2(1+1, five)" pairTestConfiguration =
    .ok (.int 7) := by decide
example : eval_with_configuration "plus2(3)" pairTestConfiguration =
    .error (.WrongArgumentAmount 1 2) := by decide
example : eval_with_configuration "plus2(1, 2, 3)" pairTestConfiguration =
    .error (.WrongArgumentAmount 3 2) := by decide

/-! Spec section 8: a function registered with arity 1 invoked with 0 or
2 parenthesized arguments fails with `WrongArgumentAmount(actual, 1)`. -/

example : eval_with_configuration "sub2()" functionTestConfiguration =
    .error (.WrongArgumentAmount 0 1) := by decide
example : eval_with_configuration "sub2(1, 2)" functionTestConfiguration =
    .error (.WrongArgumentAmount 2 1) := by decide

/-! ## Generic evaluation lemmas -/

theorem except_bind_ok {ε α β : Type} (x : α) (f : α → Except ε β) :
    (Except.ok x : Except ε α) >>= f = f x := rfl

theorem except_bind_error {ε α β : Type} (e : ε) (f : α → Except ε β) :
    (Except.error e : Except ε α) >>= f = Except.error e := rfl

theorem evalNode_and (cfg : Configuration) (c1 c2 : Node) :
    evalNode cfg (.mk .and [c1, c2]) =
      (do
        let va ← evalNode cfg c1
        let vb ← evalNode cfg c2
        booleanBinary (· && ·) va vb) := by simp [evalNode, Operator.argumentAmount]

theorem evalNode_or (cfg : Configuration) (c1 c2 : Node) :
    evalNode cfg (.mk .or [c1, c2]) =
      (do
        let va ← evalNode cfg c1
        let vb ← evalNode cfg c2
        booleanBinary (· || ·) va vb) := by simp [evalNode, Operator.argumentAmount]

theorem evalNode_div (cfg : Configuration) (c1 c2 : Node) :
    evalNode cfg (.mk .div [c1, c2]) =
      (do
        let va ← evalNode cfg c1
        let vb ← evalNode cfg c2
        numericBinary Int.tdiv ratDiv va vb) := by simp [evalNode, Operator.argumentAmount]

theorem evalNode_range (cfg : Configuration) (c1 c2 : Node) :
    evalNode cfg (.mk .range [c1, c2]) =
      (do
        let va ← evalNode cfg c1
        let vb ← evalNode cfg c2
        rangeValues va vb) := by simp [evalNode, Operator.argumentAmount]

theorem evalNode_const (cfg : Configuration) (v : Value) :
    evalNode cfg (.mk (.const v) []) = .ok v := by simp [evalNode, Operator.argumentAmount]

/-! ## Claim C6 -/

/-- C6: the parser honors the specified binding strengths, with
multiplicative operators binding tighter than additive ones and
left-associativity within each level: `3+1*5` is 8, `2*3-5` is 1 and
`1-5*3/15` is 0, all Integers. -/
theorem claim6_precedence :
    eval "3+1*5" = .ok (.int 8) ∧ eval "2*3-5" = .ok (.int 1) ∧
      eval "1-5*3/15" = .ok (.int 0) :=
  ⟨by decide, by decide, by decide⟩

/-! ## Claim C2

The claim asserts that the public pipeline can never return
`AppendedToLeafNode` on any input. The repository's own unit test at
`lib.rs` line 339 already refutes this: `eval("!(()true)")` is asserted
to be exactly `Err(Error::AppendedToLeafNode)`, and the model reproduces
that behavior (an empty parenthesized group is kept as a saturated
`rootNode` wrapper, so appending the following `true` to it fails). -/

/-- C2 counterexample: a concrete user input on which the public pipeline
returns `AppendedToLeafNode`, refuting "never returns". This is the
repository's own `test_errors` assertion (line 339). -/
theorem claim2_counterexample :
    eval "!(()true)" = .error .AppendedToLeafNode := by decide

/-- C2 amended: `AppendedToLeafNode` is reachable from user input through
the public pipeline; `!(()true)` produces it, exactly as the unit tests
assert. -/
theorem claim2_amended :
    ∃ s : String, eval s = .error .AppendedToLeafNode :=
  ⟨"!(()true)", by decide⟩

/-! ## Claim C3

The claim asserts that `eval("true-")` fails with the `MissingOperand`
variant. The repository's unit test at `lib.rs` line 338 asserts
`Err(Error::wrong_argument_amount(1, 2))` instead: the builder completes
the tree with a one-child subtraction node and the evaluator's arity
check reports actual 1 against expected 2. -/

/-- C3 counterexample: `eval("true-")` fails with
`WrongArgumentAmount(1, 2)`, which is not the `MissingOperand` variant
the claim names. -/
theorem claim3_counterexample :
    eval "true-" = .error (.WrongArgumentAmount 1 2) ∧
      Error.WrongArgumentAmount 1 2 ≠ Error.MissingOperand :=
  ⟨by decide, by decide⟩

/-- C3 amended: evaluating `true-` fails with the syntactic
`WrongArgumentAmount(1, 2)` error (actual operand count 1, expected 2),
matching the `test_errors` assertion. -/
theorem claim3_amended :
    eval "true-" = .error (Error.wrong_argument_amount 1 2) := by decide

/-! ## Claim C5 -/

/-- Claim-side reading of C5's positions: the operator lexemes of spec
section 4.1 that are not closing delimiters (the spec's operator list
includes `[`, `.` and `..`; `)` and `]` close a value and are treated by
the claim's "otherwise" branch). -/
def Token.isOperatorLexeme : Token → Bool
  | .plus | .minus | .star | .slash | .percent
  | .lt | .gt | .leq | .geq | .eq | .neq
  | .and | .or | .bang | .rangedots | .dot | .lbracket => true
  | _ => false

/-- Claim-side definition of C5's "where an operand is expected": at the
start of the expression, after `(`, after another operator, or after
`,`. -/
def operandExpected : Option Token → Bool
  | none => true
  | some .lparen => true
  | some .comma => true
  | some t => t.isOperatorLexeme

/-- C5: a `-` token is parsed as unary negation exactly when it appears
where an operand is expected (start of expression, after `(`, after
another operator, after `,`), and as binary subtraction otherwise;
consequently `5.0 *-3` and `5.0 * - 3` are Float(-15.0) and `-5--3` is
Integer(-2). -/
theorem claim5_minus_disambiguation :
    (∀ prev : Option Token, minusIsUnary prev = operandExpected prev)
    ∧ eval "5.0 *-3" = .ok (.float (-15 : ℚ))
    ∧ eval "5.0 * - 3" = .ok (.float (-15 : ℚ))
    ∧ eval "-5--3" = .ok (.int (-2)) := by
  refine ⟨?_, ?_, ?_, by decide⟩
  · intro prev
    rcases prev with _ | t
    · rfl
    · cases t <;> rfl
  · have h : eval "5.0 *-3" = .ok (.float (mkRat (-15) 1)) := by decide
    rw [h]
    norm_num [Rat.mkRat_one]
  · have h : eval "5.0 * - 3" = .ok (.float (mkRat (-15) 1)) := by decide
    rw [h]
    norm_num [Rat.mkRat_one]

/-! ## Claim C10 -/

/-- C10: integer-to-float promotion is applied independently at each
binary operation on already-evaluated operand values, never across the
whole expression. In a left-associative chain an all-Integer
sub-operation truncates before its result meets a Float: generally,
`(a / b) / q` with Integer `a`, `b` and Float `q` evaluates the inner
division as truncating integer division and only then promotes; in
particular `15/7/2.0` is Float(1.0) while `15.0/7/2` is
Float(15/7/2). -/
theorem claim10_pairwise_promotion :
    (∀ (cfg : Configuration) (a b : Int) (q : Rat),
      evalNode cfg (.mk .div [.mk .div [.mk (.const (.int a)) [], .mk (.const (.int b)) []],
        .mk (.const (.float q)) []]) = .ok (.float (ratDiv (ratOfInt (Int.tdiv a b)) q)))
    ∧ eval "15/7/2.0" = .ok (.float 1)
    ∧ eval "15.0/7/2" = .ok (.float (15 / 7 / 2 : ℚ)) := by
  refine ⟨?_, ?_, ?_⟩
  · intro cfg a b q
    rw [evalNode_div, evalNode_div, evalNode_const, evalNode_const, evalNode_const]
    rfl
  · have h : eval "15/7/2.0" = .ok (.float (mkRat 1 1)) := by decide
    rw [h]
    norm_num [Rat.mkRat_one]
  · have h : eval "15.0/7/2" = .ok (.float (mkRat 15 14)) := by decide
    rw [h]
    rw [Rat.mkRat_eq_div]
    norm_num

/-! ## Claim C9 -/

/-- C9: a range `a..b` with Integer bounds yields the Array of every
Integer from `a` up to but excluding `b` in ascending order; `a ≥ b`
yields the empty Array; a non-Integer bound fails with an
expected-number error; `0..5` is Array([0,1,2,3,4]) and `5..5` is
Array([]). -/
theorem claim9_range :
    (∀ (cfg : Configuration) (c1 c2 : Node) (a b : Int),
      evalNode cfg c1 = .ok (.int a) → evalNode cfg c2 = .ok (.int b) →
      evalNode cfg (.mk .range [c1, c2]) = .ok (.array (intRangeList a b)))
    ∧ (∀ (a b n : Int), n ∈ intRangeInts a b ↔ a ≤ n ∧ n < b)
    ∧ (∀ a b : Int, (intRangeInts a b).Pairwise (· < ·))
    ∧ (∀ a b : Int, b ≤ a → intRangeList a b = [])
    ∧ (∀ (cfg : Configuration) (c1 c2 : Node) (v w : Value),
      evalNode cfg c1 = .ok v → (∀ n, v ≠ .int n) → evalNode cfg c2 = .ok w →
      evalNode cfg (.mk .range [c1, c2]) = .error (.ExpectedNumber v))
    ∧ (∀ (cfg : Configuration) (c1 c2 : Node) (a : Int) (w : Value),
      evalNode cfg c1 = .ok (.int a) → (∀ n, w ≠ .int n) → evalNode cfg c2 = .ok w →
      evalNode cfg (.mk .range [c1, c2]) = .error (.ExpectedNumber w))
    ∧ eval "0..5" = .ok (.array [.int 0, .int 1, .int 2, .int 3, .int 4])
    ∧ eval "5..5" = .ok (.array []) := by
  refine ⟨?_, ?_, ?_, ?_, ?_, ?_, by decide, by decide⟩
  · intro cfg c1 c2 a b h1 h2
    rw [evalNode_range, h1, except_bind_ok, h2, except_bind_ok]
    rfl
  · intro a b n
    constructor
    · intro hmem
      obtain ⟨i, hi, hin⟩ := List.mem_map.1 hmem
      rw [List.mem_range] at hi
      omega
    · intro h
      refine List.mem_map.2 ⟨(n - a).toNat, ?_, ?_⟩
      · rw [List.mem_range]
        omega
      · omega
  · intro a b
    rw [intRangeInts, List.pairwise_map]
    exact List.Pairwise.imp (fun hij => by omega) (List.pairwise_lt_range _)
  · intro a b h
    simp [intRangeList, intRangeInts, Int.toNat_of_nonpos (by omega : b - a ≤ 0)]
  · intro cfg c1 c2 v w h1 hv h2
    rw [evalNode_range, h1, except_bind_ok, h2, except_bind_ok]
    rcases v with n | q | b | st | el
    · exact absurd rfl (hv n)
    · rfl
    · rfl
    · rfl
    · rfl
  · intro cfg c1 c2 a w h1 hw h2
    rw [evalNode_range, h1, except_bind_ok, h2, except_bind_ok]
    rcases w with n | q | b | st | el
    · exact absurd rfl (hw n)
    · rfl
    · rfl
    · rfl
    · rfl

/-- C9 witness: the range theorem applied at the constant bounds 2 and 5
under the empty configuration. -/
theorem claim9_witness :
    evalNode EmptyConfiguration
      (.mk .range [.mk (.const (.int 2)) [], .mk (.const (.int 5)) []]) =
      .ok (.array (intRangeList 2 5)) :=
  claim9_range.1 EmptyConfiguration _ _ 2 5 (by decide) (by decide)

/-! ## Claim C4 -/

/-- C4: `&&` and `||` evaluate both operand subtrees (no short-circuit):
when the right operand evaluates to an error, the whole expression
evaluates to that error even when the left operand's Boolean value alone
would determine the result (false for `&&`, true for `||`); and an
operand that evaluates to a non-Boolean value makes evaluation fail with
an expected-boolean error carrying that value. -/
theorem claim4_no_short_circuit :
    (∀ (cfg : Configuration) (c1 c2 : Node) (e : Error),
      evalNode cfg c1 = .ok (.boolean false) → evalNode cfg c2 = .error e →
      evalNode cfg (.mk .and [c1, c2]) = .error e)
    ∧ (∀ (cfg : Configuration) (c1 c2 : Node) (e : Error),
      evalNode cfg c1 = .ok (.boolean true) → evalNode cfg c2 = .error e →
      evalNode cfg (.mk .or [c1, c2]) = .error e)
    ∧ (∀ (cfg : Configuration) (c1 c2 : Node) (v w : Value),
      evalNode cfg c1 = .ok v → (∀ b, v ≠ .boolean b) → evalNode cfg c2 = .ok w →
      evalNode cfg (.mk .and [c1, c2]) = .error (.ExpectedBoolean v)
      ∧ evalNode cfg (.mk .or [c1, c2]) = .error (.ExpectedBoolean v))
    ∧ (∀ (cfg : Configuration) (c1 c2 : Node) (b : Bool) (w : Value),
      evalNode cfg c1 = .ok (.boolean b) → (∀ b2, w ≠ .boolean b2) →
      evalNode cfg c2 = .ok w →
      evalNode cfg (.mk .and [c1, c2]) = .error (.ExpectedBoolean w)
      ∧ evalNode cfg (.mk .or [c1, c2]) = .error (.ExpectedBoolean w)) := by
  refine ⟨?_, ?_, ?_, ?_⟩
  · intro cfg c1 c2 e h1 h2
    rw [evalNode_and, h1, except_bind_ok, h2]
    rfl
  · intro cfg c1 c2 e h1 h2
    rw [evalNode_or, h1, except_bind_ok, h2]
    rfl
  · intro cfg c1 c2 v w h1 hv h2
    constructor
    · rw [evalNode_and, h1, except_bind_ok, h2, except_bind_ok]
      rcases v with n | q | b | st | el
      · rfl
      · rfl
      · exact absurd rfl (hv b)
      · rfl
      · rfl
    · rw [evalNode_or, h1, except_bind_ok, h2, except_bind_ok]
      rcases v with n | q | b | st | el
      · rfl
      · rfl
      · exact absurd rfl (hv b)
      · rfl
      · rfl
  · intro cfg c1 c2 b w h1 hw h2
    constructor
    · rw [evalNode_and, h1, except_bind_ok, h2, except_bind_ok]
      rcases w with n | q | b2 | st | el
      · rfl
      · rfl
      · exact absurd rfl (hw b2)
      · rfl
      · rfl
    · rw [evalNode_or, h1, except_bind_ok, h2, except_bind_ok]
      rcases w with n | q | b2 | st | el
      · rfl
      · rfl
      · exact absurd rfl (hw b2)
      · rfl
      · rfl

/-- C4 witness: `false && nope` with an unbound variable `nope` on the
right: the left operand alone would decide the conjunction, yet the
evaluation error of the right operand is returned. -/
theorem claim4_witness :
    evalNode EmptyConfiguration (.mk .and [.mk (.const (.boolean false)) [],
      .mk (.variableIdentifier "nope") []]) =
      .error (.VariableIdentifierNotFound "nope") :=
  claim4_no_short_circuit.1 EmptyConfiguration _ _ _ (by decide) (by decide)

/-! ## Claim C7: parenthesization is an identity

The proof is compositional in all three stages: wrapping characters in
parentheses wraps the token list in `(`/`)`; the builder processes the
inner tokens on a stack extended below by the outer root, and the closing
parenthesis re-inserts the finished group as a `rootNode` wrapper; the
wrapper evaluates transparently to its child. -/

theorem except_bind_pure {ε α : Type} (x : Except ε α) : x >>= pure = x := by
  cases x <;> rfl

/-- The scanner run on a character list from a given mode, starting with
no emitted tokens. -/
def runLex (m : LexMode) (l : List Char) : List Token × LexMode :=
  l.foldl lexStep ([], m)

theorem foldl_lexStep_shift (l : List Char) : ∀ (toks : List Token) (m : LexMode),
    l.foldl lexStep (toks, m) = (toks ++ (runLex m l).1, (runLex m l).2) := by
  induction l with
  | nil => intro toks m; simp [runLex]
  | cons c l ih =>
    intro toks m
    have h1 : List.foldl lexStep (toks, m) (c :: l) =
        List.foldl lexStep (toks ++ (stepCore m c).1, (stepCore m c).2) l := rfl
    have h2 : runLex m (c :: l) =
        List.foldl lexStep ((stepCore m c).1, (stepCore m c).2) l := by
      simp [runLex, List.foldl_cons, lexStep]
    rw [h1, h2, ih, ih ((stepCore m c).1)]
    simp

/-- Flushing at the end of input and then a `)`, versus seeing the `)`
directly: the same tokens are emitted, followed by the `)` itself. -/
theorem stepCore_rparen_flush : ∀ (m : LexMode) (ts : List Token),
    flushMode m = .ok ts → stepCore m ')' = (ts ++ [.rparen], .start) := by
  intro m ts h
  cases m with
  | start =>
    injection h with h
    subst h
    rfl
  | inInt ds =>
    injection h with h
    subst h
    rfl
  | intDot ds =>
    injection h with h
    subst h
    rfl
  | inFloat ds fs =>
    injection h with h
    subst h
    rfl
  | inIdent cs =>
    injection h with h
    subst h
    rfl
  | inStr q cs => exact absurd h (by simp [flushMode])
  | pendingEq => exact absurd h (by simp [flushMode])
  | pendingBang =>
    injection h with h
    subst h
    rfl
  | pendingLt =>
    injection h with h
    subst h
    rfl
  | pendingGt =>
    injection h with h
    subst h
    rfl
  | pendingAmp => exact absurd h (by simp [flushMode])
  | pendingPipe => exact absurd h (by simp [flushMode])
  | pendingDot =>
    injection h with h
    subst h
    rfl
  | failed e => exact absurd h (by simp [flushMode])

/-- Tokenizing `"(" ++ s ++ ")"` wraps the token list of `s` in
parentheses. -/
theorem tokenize_paren (s : String) (ts : List Token) (h : tokenize s = .ok ts) :
    tokenize ("(" ++ s ++ ")") = .ok (.lparen :: (ts ++ [.rparen])) := by
  rcases hrun : runLex .start s.data with ⟨ts₀, m⟩
  have hfold0 : List.foldl lexStep ([], .start) s.data = (ts₀, m) := by
    have hs := foldl_lexStep_shift s.data [] .start
    rw [hrun] at hs
    simpa using hs
  rw [tokenize, hfold0] at h
  rcases hflush : flushMode m with e | flushed
  · rw [hflush] at h
    exact absurd h (by simp)
  rw [hflush] at h
  injection h with h
  have hdata : ("(" ++ s ++ ")").data = '(' :: (s.data ++ [')']) := by
    simp [String.data_append]
  rw [tokenize, hdata]
  have hsplit : List.foldl lexStep ([], .start) ('(' :: (s.data ++ [')'])) =
      List.foldl lexStep ([Token.lparen], .start) (s.data ++ [')']) := rfl
  have hfold1 : List.foldl lexStep ([Token.lparen], .start) s.data =
      ([Token.lparen] ++ ts₀, m) := by
    rw [foldl_lexStep_shift, hrun]
  have hstep : List.foldl lexStep ([Token.lparen] ++ ts₀, m) [')'] =
      ([Token.lparen] ++ ts₀ ++ (flushed ++ [.rparen]), .start) := by
    simp only [List.foldl_cons, List.foldl_nil, lexStep,
      stepCore_rparen_flush m flushed hflush]
  rw [hsplit, List.foldl_append, hfold1, hstep]
  subst h
  simp [flushMode]

/-- A successful insertion preserves the operator at the tree's root. -/
theorem insertBack_operator (op : Operator) (cs : List Node) (m n' : Node)
    (h : insertBack (.mk op cs) m = .ok n') : n'.operator = op := by
  rw [insertBack] at h
  split at h
  · exact absurd h (by simp)
  · split at h
    · split at h
      · split at h
        · rcases hl : insertLastList cs m with e | cs'
          · rw [hl] at h
            exact absurd h (by simp)
          · rw [hl] at h
            injection h with h
            subst h
            rfl
        · split at h
          · exact absurd h (by simp)
          · injection h with h
            subst h
            rfl
      · exact absurd h (by simp)
    · injection h with h
      subst h
      rfl

/-- A successful top-of-stack insertion extends to a larger stack. -/
theorem insertTop_extend (st : List Node) (node : Node) (st' base : List Node)
    (h : insertTop st node = .ok st') :
    insertTop (st ++ base) node = .ok (st' ++ base) := by
  cases st with
  | nil => exact absurd h (by simp [insertTop])
  | cons top rest =>
    simp only [insertTop] at h ⊢
    rcases hb : insertBack top node with e | top'
    · rw [hb] at h
      exact absurd h (by simp)
    · rw [hb] at h
      injection h with h
      subst h
      simp [hb]

/-- A successful builder step is insensitive to the stack below its
working area and to changes of the `prev`/`next` context that do not
alter the unary-minus, field-name-consumption, function-identifier and
member-field decisions. -/
theorem buildStep_extend (p₁ p₂ n₁ n₂ : Option Token) (t : Token)
    (st st' base : List Node)
    (hm : minusIsUnary p₁ = minusIsUnary p₂)
    (hd : prevIsDot p₁ = prevIsDot p₂)
    (hn : optLeftsided n₁ = optLeftsided n₂)
    (hf : nextFieldName n₁ = nextFieldName n₂)
    (h : buildStep p₁ n₁ t st = .ok st') :
    buildStep p₂ n₂ t (st ++ base) = .ok (st' ++ base) := by
  cases t with
  | intLit n => exact insertTop_extend _ _ _ _ h
  | floatLit q => exact insertTop_extend _ _ _ _ h
  | boolLit b => exact insertTop_extend _ _ _ _ h
  | strLit s => exact insertTop_extend _ _ _ _ h
  | ident name =>
    rw [buildStep] at h ⊢
    rw [← hd, ← hn]
    rcases hpd : prevIsDot p₁ with _ | _
    · rw [hpd] at h
      simp only [Bool.false_eq_true, if_false] at h ⊢
      rcases hl : optLeftsided n₁ with _ | _
      · rw [hl] at h
        simp only [Bool.false_eq_true, if_false] at h ⊢
        exact insertTop_extend _ _ _ _ h
      · rw [hl] at h
        simp only [if_true] at h ⊢
        exact insertTop_extend _ _ _ _ h
    · rw [hpd] at h
      simp only [if_true] at h ⊢
      injection h with h
      subst h
      rfl
  | minus =>
    rw [buildStep] at h ⊢
    rw [← hm]
    rcases hu : minusIsUnary p₁ with _ | _
    · rw [hu] at h
      simp only [Bool.false_eq_true, if_false] at h ⊢
      exact insertTop_extend _ _ _ _ h
    · rw [hu] at h
      simp only [if_true] at h ⊢
      exact insertTop_extend _ _ _ _ h
  | plus => exact insertTop_extend _ _ _ _ h
  | star => exact insertTop_extend _ _ _ _ h
  | slash => exact insertTop_extend _ _ _ _ h
  | percent => exact insertTop_extend _ _ _ _ h
  | eq => exact insertTop_extend _ _ _ _ h
  | neq => exact insertTop_extend _ _ _ _ h
  | lt => exact insertTop_extend _ _ _ _ h
  | gt => exact insertTop_extend _ _ _ _ h
  | leq => exact insertTop_extend _ _ _ _ h
  | geq => exact insertTop_extend _ _ _ _ h
  | and => exact insertTop_extend _ _ _ _ h
  | or => exact insertTop_extend _ _ _ _ h
  | bang => exact insertTop_extend _ _ _ _ h
  | rangedots => exact insertTop_extend _ _ _ _ h
  | comma => exact insertTop_extend _ _ _ _ h
  | dot =>
    rw [buildStep] at h ⊢
    rw [← hf]
    rcases hff : nextFieldName n₁ with _ | f
    · rw [hff] at h
      exact absurd h (by simp)
    · rw [hff] at h
      exact insertTop_extend _ _ _ _ h
  | lparen =>
    injection h with h
    subst h
    rfl
  | lbracket =>
    rw [buildStep] at h ⊢
    rcases hi : insertTop st (Node.mk .index []) with e | st₁
    · rw [hi] at h
      exact absurd h (by simp [except_bind_error])
    · rw [hi, except_bind_ok] at h
      injection h with h
      subst h
      rw [insertTop_extend _ _ _ _ hi, except_bind_ok]
      rfl
  | rparen =>
    rcases st with _ | ⟨inner, _ | ⟨outer, rest⟩⟩
    · exact absurd h (by simp [buildStep])
    · exact absurd h (by simp [buildStep])
    · simp only [buildStep] at h ⊢
      rcases hb : insertBack outer (flattenGroup inner) with e | outer'
      · rw [hb] at h
        exact absurd h (by simp)
      · rw [hb] at h
        injection h with h
        subst h
        simp [hb]
  | rbracket =>
    rcases st with _ | ⟨inner, _ | ⟨outer, rest⟩⟩
    · exact absurd h (by simp [buildStep])
    · exact absurd h (by simp [buildStep])
    · simp only [buildStep] at h ⊢
      rcases hb : insertBack outer (flattenGroup inner) with e | outer'
      · rw [hb] at h
        exact absurd h (by simp)
      · rw [hb] at h
        injection h with h
        subst h
        simp [hb]

/-- The builder's action for a closing parenthesis: pop the finished
group and insert it, with its comma chain flattened but still wrapped in
its root, into the outer root. -/
def popGroup : List Node → Except Error (List Node)
  | inner :: outer :: rest => do
    let outer' ← insertBack outer (flattenGroup inner)
    pure (outer' :: rest)
  | _ => .error .UnexpectedToken

theorem buildStep_rparen (p n : Option Token) (st : List Node) :
    buildStep p n .rparen st = popGroup st := rfl

theorem optLeftsided_head_append_rparen (ts : List Token) :
    optLeftsided ts.head? = optLeftsided ((ts ++ [Token.rparen]).head?) := by
  cases ts
  · rfl
  · rfl

theorem nextFieldName_head_append_rparen (ts : List Token) :
    nextFieldName ts.head? = nextFieldName ((ts ++ [Token.rparen]).head?) := by
  cases ts
  · rfl
  · rfl

/-- Running the builder over `ts ++ [)]` on a stack extended below is the
run over `ts` followed by the group pop, provided the starting `prev`
context does not change the unary-minus decision. -/
theorem runBuild_extend_rparen : ∀ (ts : List Token) (p₁ p₂ : Option Token)
    (st st' base : List Node),
    minusIsUnary p₁ = minusIsUnary p₂ →
    prevIsDot p₁ = prevIsDot p₂ →
    runBuild p₁ ts st = .ok st' →
    runBuild p₂ (ts ++ [.rparen]) (st ++ base) = popGroup (st' ++ base) := by
  intro ts
  induction ts with
  | nil =>
    intro p₁ p₂ st st' base hm hd h
    rw [runBuild] at h
    injection h with h
    subst h
    rw [List.nil_append, runBuild, buildStep_rparen]
    rcases hp : popGroup (st ++ base) with e | stk
    · rfl
    · rw [except_bind_ok]
      rfl
  | cons t ts ih =>
    intro p₁ p₂ st st' base hm hd h
    rw [runBuild] at h
    rcases hb : buildStep p₁ ts.head? t st with e | st₁
    · rw [hb] at h
      exact absurd h (by simp [except_bind_error])
    · rw [hb, except_bind_ok] at h
      have hext := buildStep_extend p₁ p₂ ts.head? ((ts ++ [Token.rparen]).head?) t
        st st₁ base hm hd (optLeftsided_head_append_rparen ts)
        (nextFieldName_head_append_rparen ts) hb
      rw [List.cons_append, runBuild, hext, except_bind_ok]
      exact ih (some t) (some t) st₁ st' base rfl rfl h

/-- A successful top insertion keeps every stack root a `rootNode`. -/
theorem insertTop_allRoot (st : List Node) (node : Node) (st' : List Node)
    (h : insertTop st node = .ok st')
    (hst : ∀ x ∈ st, x.operator = .rootNode) :
    ∀ x ∈ st', x.operator = .rootNode := by
  cases st with
  | nil => exact absurd h (by simp [insertTop])
  | cons top rest =>
    simp only [insertTop] at h
    rcases hb : insertBack top node with e | top'
    · rw [hb] at h
      exact absurd h (by simp)
    · rw [hb] at h
      injection h with h
      subst h
      intro x hx
      rw [List.mem_cons] at hx
      rcases hx with rfl | hx
      · rcases top with ⟨op, cs⟩
        have hop := insertBack_operator op cs node _ hb
        rw [hop]
        exact hst (.mk op cs) (List.mem_cons_self _ _)
      · exact hst x (List.mem_cons_of_mem _ hx)

/-- Every stack entry of a successful builder step is a `rootNode`. -/
theorem buildStep_allRoot (p n : Option Token) (t : Token) (st st' : List Node)
    (h : buildStep p n t st = .ok st')
    (hst : ∀ x ∈ st, x.operator = .rootNode) :
    ∀ x ∈ st', x.operator = .rootNode := by
  cases t with
  | intLit k => exact insertTop_allRoot _ _ _ h hst
  | floatLit q => exact insertTop_allRoot _ _ _ h hst
  | boolLit b => exact insertTop_allRoot _ _ _ h hst
  | strLit s => exact insertTop_allRoot _ _ _ h hst
  | ident name =>
    rw [buildStep] at h
    rcases hpd : prevIsDot p with _ | _
    · rw [hpd] at h
      simp only [Bool.false_eq_true, if_false] at h
      rcases hl : optLeftsided n with _ | _
      · rw [hl] at h
        simp only [Bool.false_eq_true, if_false] at h
        exact insertTop_allRoot _ _ _ h hst
      · rw [hl] at h
        simp only [if_true] at h
        exact insertTop_allRoot _ _ _ h hst
    · rw [hpd] at h
      simp only [if_true] at h
      injection h with h
      subst h
      exact hst
  | minus =>
    rw [buildStep] at h
    rcases hu : minusIsUnary p with _ | _
    · rw [hu] at h
      simp only [Bool.false_eq_true, if_false] at h
      exact insertTop_allRoot _ _ _ h hst
    · rw [hu] at h
      simp only [if_true] at h
      exact insertTop_allRoot _ _ _ h hst
  | plus => exact insertTop_allRoot _ _ _ h hst
  | star => exact insertTop_allRoot _ _ _ h hst
  | slash => exact insertTop_allRoot _ _ _ h hst
  | percent => exact insertTop_allRoot _ _ _ h hst
  | eq => exact insertTop_allRoot _ _ _ h hst
  | neq => exact insertTop_allRoot _ _ _ h hst
  | lt => exact insertTop_allRoot _ _ _ h hst
  | gt => exact insertTop_allRoot _ _ _ h hst
  | leq => exact insertTop_allRoot _ _ _ h hst
  | geq => exact insertTop_allRoot _ _ _ h hst
  | and => exact insertTop_allRoot _ _ _ h hst
  | or => exact insertTop_allRoot _ _ _ h hst
  | bang => exact insertTop_allRoot _ _ _ h hst
  | rangedots => exact insertTop_allRoot _ _ _ h hst
  | comma => exact insertTop_allRoot _ _ _ h hst
  | dot =>
    rw [buildStep] at h
    rcases hff : nextFieldName n with _ | f
    · rw [hff] at h
      exact absurd h (by simp)
    · rw [hff] at h
      exact insertTop_allRoot _ _ _ h hst
  | lparen =>
    injection h with h
    subst h
    intro x hx
    rw [List.mem_cons] at hx
    rcases hx with rfl | hx
    · rfl
    · exact hst x hx
  | lbracket =>
    rw [buildStep] at h
    rcases hi : insertTop st (Node.mk .index []) with e | st₁
    · rw [hi] at h
      exact absurd h (by simp [except_bind_error])
    · rw [hi, except_bind_ok] at h
      injection h with h
      subst h
      intro x hx
      rw [List.mem_cons] at hx
      rcases hx with rfl | hx
      · rfl
      · exact insertTop_allRoot _ _ _ hi hst x hx
  | rparen =>
    rcases st with _ | ⟨inner, _ | ⟨outer, rest⟩⟩
    · exact absurd h (by simp [buildStep])
    · exact absurd h (by simp [buildStep])
    · simp only [buildStep] at h
      rcases hb : insertBack outer (flattenGroup inner) with e | outer'
      · rw [hb] at h
        exact absurd h (by simp)
      · rw [hb] at h
        injection h with h
        subst h
        intro x hx
        rw [List.mem_cons] at hx
        rcases hx with rfl | hx
        · rcases outer with ⟨op, cs⟩
          have hop := insertBack_operator op cs (flattenGroup inner) _ hb
          rw [hop]
          exact hst (.mk op cs) (List.mem_cons_of_mem _ (List.mem_cons_self _ _))
        · exact hst x (List.mem_cons_of_mem _ (List.mem_cons_of_mem _ hx))
  | rbracket =>
    rcases st with _ | ⟨inner, _ | ⟨outer, rest⟩⟩
    · exact absurd h (by simp [buildStep])
    · exact absurd h (by simp [buildStep])
    · simp only [buildStep] at h
      rcases hb : insertBack outer (flattenGroup inner) with e | outer'
      · rw [hb] at h
        exact absurd h (by simp)
      · rw [hb] at h
        injection h with h
        subst h
        intro x hx
        rw [List.mem_cons] at hx
        rcases hx with rfl | hx
        · rcases outer with ⟨op, cs⟩
          have hop := insertBack_operator op cs (flattenGroup inner) _ hb
          rw [hop]
          exact hst (.mk op cs) (List.mem_cons_of_mem _ (List.mem_cons_self _ _))
        · exact hst x (List.mem_cons_of_mem _ (List.mem_cons_of_mem _ hx))

/-- Every stack entry of a successful builder run is a `rootNode`. -/
theorem runBuild_allRoot : ∀ (ts : List Token) (p : Option Token) (st st' : List Node),
    runBuild p ts st = .ok st' →
    (∀ x ∈ st, x.operator = .rootNode) →
    ∀ x ∈ st', x.operator = .rootNode := by
  intro ts
  induction ts with
  | nil =>
    intro p st st' h hst
    rw [runBuild] at h
    injection h with h
    subst h
    exact hst
  | cons t ts ih =>
    intro p st st' h hst
    rw [runBuild] at h
    rcases hb : buildStep p ts.head? t st with e | st₁
    · rw [hb] at h
      exact absurd h (by simp [except_bind_error])
    · rw [hb, except_bind_ok] at h
      exact ih (some t) st₁ st' h (buildStep_allRoot _ _ _ _ _ hb hst)

theorem insertBack_into_empty_root (node : Node) :
    insertBack (.mk .rootNode []) node = .ok (.mk .rootNode [node]) := rfl

/-- Building `( ts )` yields the tree of `ts` wrapped in a transparent
`rootNode` group, provided the tree of `ts` is not a bare comma chain
(which the closing parenthesis would tear into an argument list). -/
theorem tokens_to_operator_tree_paren (ts : List Token) (c : Node)
    (hc : sepFlatten c = [c])
    (h : tokens_to_operator_tree ts = .ok c) :
    tokens_to_operator_tree (.lparen :: (ts ++ [.rparen])) = .ok (.mk .rootNode [c]) := by
  rw [tokens_to_operator_tree] at h
  rcases hr : runBuild none ts [Node.mk .rootNode []] with e | final
  · rw [hr] at h
    exact absurd h (by simp [except_bind_error])
  rw [hr, except_bind_ok] at h
  rcases final with _ | ⟨⟨op, cs⟩, rest⟩
  · rw [show finalizeBuild [] = .error .MissingClosingBracket from rfl] at h
    exact absurd h (by simp)
  rcases rest with _ | ⟨r2, rrest⟩
  · rcases cs with _ | ⟨c0, _ | ⟨c1, cs''⟩⟩
    · rw [show finalizeBuild [Node.mk op []] = .error .EmptyExpression from rfl] at h
      exact absurd h (by simp)
    · rw [show finalizeBuild [Node.mk op [c0]] = pure c0 from rfl] at h
      injection h with h
      subst c0
      have hop : op = .rootNode := by
        have hall := runBuild_allRoot ts none _ _ hr (by
          intro x hx
          rw [List.mem_cons] at hx
          rcases hx with rfl | hx
          · rfl
          · simp at hx)
        exact hall (.mk op [c]) (List.mem_cons_self _ _)
      subst hop
      rw [tokens_to_operator_tree, runBuild]
      have hpstep : buildStep none ((ts ++ [Token.rparen]).head?) Token.lparen
          [Node.mk .rootNode []] =
          .ok ([Node.mk .rootNode []] ++ [Node.mk .rootNode []]) := rfl
      rw [hpstep, except_bind_ok]
      rw [runBuild_extend_rparen ts none (some .lparen) [Node.mk .rootNode []]
        [Node.mk .rootNode [c]] [Node.mk .rootNode []] rfl rfl hr]
      rw [show popGroup ([Node.mk .rootNode [c]] ++ [Node.mk .rootNode []]) =
        .ok [Node.mk .rootNode [Node.mk .rootNode (sepFlatten c)]] from rfl]
      rw [hc, except_bind_ok]
      rfl
    · rw [show finalizeBuild [Node.mk op (c0 :: c1 :: cs'')] =
        .error .UnexpectedToken from rfl] at h
      exact absurd h (by simp)
  · rw [show finalizeBuild (Node.mk op cs :: r2 :: rrest) =
      .error .MissingClosingBracket from rfl] at h
    exact absurd h (by simp)

/-- A `rootNode` group evaluates transparently to its single child. -/
theorem evalNode_root (cfg : Configuration) (c : Node) :
    evalNode cfg (.mk .rootNode [c]) = evalNode cfg c := by
  simp [evalNode, Operator.argumentAmount]

/-- A comma-chain (`sep`) node never evaluates successfully, so any node
that does evaluate successfully is left alone by `sepFlatten`. -/
theorem sepFlatten_eval_ok (cfg : Configuration) (n : Node) (v : Value)
    (h : evalNode cfg n = .ok v) : sepFlatten n = [n] := by
  rcases n with ⟨op, cs⟩
  cases op
  case sep =>
    exfalso
    rcases cs with _ | ⟨a, _ | ⟨b, _ | ⟨x, xs⟩⟩⟩ <;>
      simp [evalNode, Operator.argumentAmount] at h
  all_goals rfl

/-- C7: parenthesization is an identity: for every expression string E
that evaluates successfully, `eval("(" ++ E ++ ")")` returns exactly the
same result as `eval(E)` — the group contributes only a transparent
`rootNode` wrapper. -/
theorem claim7_paren_identity (E : String) (v : Value) (h : eval E = .ok v) :
    eval ("(" ++ E ++ ")") = .ok v := by
  rw [eval] at h ⊢
  rcases ht : tokenize E with e | ts
  · rw [ht] at h
    exact absurd h (by simp [except_bind_error])
  rw [ht, except_bind_ok] at h
  rcases hb : tokens_to_operator_tree ts with e | c
  · rw [hb] at h
    exact absurd h (by simp [except_bind_error])
  rw [hb, except_bind_ok] at h
  rw [tokenize_paren E ts ht, except_bind_ok]
  rw [Node.eval] at h
  rw [tokens_to_operator_tree_paren ts c (sepFlatten_eval_ok _ c v h) hb, except_bind_ok]
  rw [Node.eval]
  rw [evalNode_root]
  exact h

/-- C7 witness: the identity applied to the expression `1`. -/
theorem claim7_witness : eval ("(" ++ "1" ++ ")") = .ok (.int 1) :=
  claim7_paren_identity "1" (.int 1) (by decide)

/-! ## Claim C8: juxtaposition equals the parenthesized one-argument call -/

/-- Syntactic validity of a name as a single identifier token: a letter
or underscore start, letter/digit/underscore continuation, and not a
Boolean literal. -/
def validIdentifier (s : String) : Bool :=
  match s.data with
  | [] => false
  | c :: cs => identStartChar c && cs.all identChar && s != "true" && s != "false"

theorem identStartChar_classes (c : Char) (h : identStartChar c = true) :
    isWhitespaceChar c = false ∧ isDigitChar c = false := by
  simp only [identStartChar, Bool.or_eq_true, Bool.and_eq_true, decide_eq_true_eq] at h
  constructor
  · simp only [isWhitespaceChar, Bool.or_eq_false_iff, decide_eq_false_iff_not]
    omega
  · simp only [isDigitChar, Bool.and_eq_false_iff, decide_eq_false_iff_not]
    omega

theorem startChar_identStart (c : Char) (h : identStartChar c = true) :
    startChar c = ([], .inIdent [c]) := by
  obtain ⟨hws, hdig⟩ := identStartChar_classes c h
  simp [startChar, hws, hdig, h]

/-- One-character unfolding of a scanner run. -/
theorem runLex_cons (m : LexMode) (c : Char) (l : List Char) :
    runLex m (c :: l) = ((stepCore m c).1 ++ (runLex (stepCore m c).2 l).1,
      (runLex (stepCore m c).2 l).2) := by
  rw [runLex, List.foldl_cons]
  rw [show lexStep ([], m) c = ((stepCore m c).1, (stepCore m c).2) from by simp [lexStep]]
  rw [foldl_lexStep_shift]

/-- Concatenation splitting of a scanner run. -/
theorem runLex_append (m : LexMode) (l₁ l₂ : List Char) :
    runLex m (l₁ ++ l₂) = ((runLex m l₁).1 ++ (runLex (runLex m l₁).2 l₂).1,
      (runLex (runLex m l₁).2 l₂).2) := by
  rw [runLex, List.foldl_append]
  rw [show List.foldl lexStep ([], m) l₁ = runLex m l₁ from rfl]
  rcases hr : runLex m l₁ with ⟨ts, m'⟩
  rw [foldl_lexStep_shift]

/-- Identifier characters keep accumulating into the identifier buffer. -/
theorem runLex_ident_run : ∀ (l b : List Char),
    (∀ c ∈ l, identChar c = true) →
    runLex (.inIdent b) l = ([], .inIdent (b ++ l)) := by
  intro l
  induction l with
  | nil =>
    intro b _
    simp [runLex]
  | cons c l ih =>
    intro b hall
    have hc : identChar c = true := hall c (List.mem_cons_self _ _)
    have hstep : stepCore (.inIdent b) c = ([], .inIdent (b ++ [c])) := by
      simp [stepCore, hc]
    rw [runLex_cons, hstep, ih (b ++ [c]) (fun d hd => hall d (List.mem_cons_of_mem _ hd))]
    simp

/-- The shape of a valid identifier. -/
theorem validIdentifier_shape (s : String) (h : validIdentifier s = true) :
    ∃ c cs, s.data = c :: cs ∧ identStartChar c = true ∧
      (∀ d ∈ cs, identChar d = true) ∧ s ≠ "true" ∧ s ≠ "false" := by
  rw [validIdentifier] at h
  rcases hd : s.data with _ | ⟨c, cs⟩
  · rw [hd] at h
    exact absurd h (by simp)
  · rw [hd] at h
    simp only [Bool.and_eq_true, bne_iff_ne, List.all_eq_true] at h
    obtain ⟨⟨⟨h1, h2⟩, h3⟩, h4⟩ := h
    exact ⟨c, cs, rfl, h1, h2, h3, h4⟩

/-- Scanning a valid identifier from the neutral state accumulates
exactly its characters. -/
theorem runLex_start_ident (s : String) (h : validIdentifier s = true) :
    runLex .start s.data = ([], .inIdent s.data) := by
  obtain ⟨c, cs, hd, hstart, hall, _, _⟩ := validIdentifier_shape s h
  rw [hd, runLex_cons]
  rw [show stepCore .start c = ([], .inIdent [c]) from startChar_identStart c hstart]
  rw [runLex_ident_run cs [c] hall]
  simp

theorem identToken_valid (s : String) (h : validIdentifier s = true) :
    identToken s.data = .ident s := by
  obtain ⟨c, cs, hd, _, _, h3, h4⟩ := validIdentifier_shape s h
  have hmk : String.mk s.data = s := rfl
  rw [identToken]
  simp only [hmk]
  rw [if_neg h3, if_neg h4]

/-- Flushing an identifier buffer on a non-identifier character. -/
theorem stepCore_ident_flush (cs : List Char) (c : Char) (hc : identChar c = false) :
    stepCore (.inIdent cs) c = ([identToken cs] ++ (startChar c).1, (startChar c).2) := by
  simp [stepCore, hc, flushThen]

/-- Tokenizing `f x` for valid identifiers: two identifier tokens. -/
theorem tokenize_jux (f x : String)
    (hf : validIdentifier f = true) (hx : validIdentifier x = true) :
    tokenize (f ++ " " ++ x) = .ok [.ident f, .ident x] := by
  have hdata : (f ++ " " ++ x).data = f.data ++ (' ' :: x.data) := by
    simp [String.data_append]
  rw [tokenize, hdata, List.foldl_append]
  rw [show List.foldl lexStep ([], .start) f.data = runLex .start f.data from rfl]
  rw [runLex_start_ident f hf]
  rw [show List.foldl lexStep (([], LexMode.inIdent f.data)) (' ' :: x.data) =
    (([] : List Token) ++ (runLex (.inIdent f.data) (' ' :: x.data)).1,
      (runLex (.inIdent f.data) (' ' :: x.data)).2) from by rw [foldl_lexStep_shift]]
  rw [runLex_cons]
  rw [stepCore_ident_flush f.data ' ' (by decide)]
  rw [show startChar ' ' = ([], .start) from by decide]
  rw [runLex_start_ident x hx]
  simp [flushMode, identToken_valid f hf, identToken_valid x hx]

/-- Tokenizing `f(x)` for valid identifiers: identifier, parentheses,
identifier. -/
theorem tokenize_call (f x : String)
    (hf : validIdentifier f = true) (hx : validIdentifier x = true) :
    tokenize (f ++ "(" ++ x ++ ")") = .ok [.ident f, .lparen, .ident x, .rparen] := by
  have hdata : (f ++ "(" ++ x ++ ")").data = f.data ++ ('(' :: (x.data ++ [')'])) := by
    simp [String.data_append]
  rw [tokenize, hdata, List.foldl_append]
  rw [show List.foldl lexStep ([], .start) f.data = runLex .start f.data from rfl]
  rw [runLex_start_ident f hf]
  rw [show List.foldl lexStep (([], LexMode.inIdent f.data)) ('(' :: (x.data ++ [')'])) =
    (([] : List Token) ++ (runLex (.inIdent f.data) ('(' :: (x.data ++ [')']))).1,
      (runLex (.inIdent f.data) ('(' :: (x.data ++ [')']))).2) from by
        rw [foldl_lexStep_shift]]
  rw [runLex_cons]
  rw [stepCore_ident_flush f.data '(' (by decide)]
  rw [show startChar '(' = ([.lparen], .start) from by decide]
  rw [runLex_append]
  rw [runLex_start_ident x hx]
  rw [show runLex (.inIdent x.data) [')'] =
    ([identToken x.data, .rparen], .start) from by
      rw [runLex_cons, stepCore_ident_flush x.data ')' (by decide)]
      rw [show startChar ')' = ([.rparen], .start) from by decide]
      simp [runLex]]
  simp [flushMode, identToken_valid f hf, identToken_valid x hx]

/-- Building `f x`: a function node with the juxtaposed argument as its
direct child. -/
theorem build_jux (f x : String) :
    tokens_to_operator_tree [.ident f, .ident x] =
      .ok (.mk (.functionIdentifier f) [.mk (.variableIdentifier x) []]) := rfl

/-- Building `f(x)`: a function node whose child is the parenthesized
group wrapping the argument. -/
theorem build_call (f x : String) :
    tokens_to_operator_tree [.ident f, .lparen, .ident x, .rparen] =
      .ok (.mk (.functionIdentifier f)
        [.mk .rootNode [.mk (.variableIdentifier x) []]]) := rfl

theorem evalNode_func_direct (cfg : Configuration) (f x : String) :
    evalNode cfg (.mk (.functionIdentifier f) [.mk (.variableIdentifier x) []]) =
      (do
        let v ← evalNode cfg (.mk (.variableIdentifier x) [])
        callFunction cfg f [v]) := by
  simp [evalNode, Operator.argumentAmount, evalList]

theorem evalNode_func_wrapped (cfg : Configuration) (f x : String) :
    evalNode cfg (.mk (.functionIdentifier f)
        [.mk .rootNode [.mk (.variableIdentifier x) []]]) =
      (do
        let v ← evalNode cfg (.mk (.variableIdentifier x) [])
        callFunction cfg f [v]) := by
  simp [evalNode, Operator.argumentAmount, evalList]
  rcases hv : cfg.get_variable x with _ | w <;> simp [hv] <;> rfl

/-- C8: for every function `f` registered in `cfg` and every variable
`x` bound in `cfg` (both syntactically valid identifiers), evaluating
the juxtaposition `f x` against `cfg` returns the same result as
evaluating the parenthesized call `f(x)` against `cfg`. -/
theorem claim8_juxtaposition (f x : String) (cfg : Configuration)
    (F : Function) (v : Value)
    (hf : validIdentifier f = true) (hx : validIdentifier x = true)
    (_hgf : cfg.get_function f = some F) (_hgv : cfg.get_variable x = some v) :
    eval_with_configuration (f ++ " " ++ x) cfg =
      eval_with_configuration (f ++ "(" ++ x ++ ")") cfg := by
  rw [eval_with_configuration, eval_with_configuration]
  rw [tokenize_jux f x hf hx, tokenize_call f x hf hx]
  rw [except_bind_ok, except_bind_ok]
  rw [build_jux, build_call, except_bind_ok, except_bind_ok]
  rw [Node.eval, Node.eval, evalNode_func_direct, evalNode_func_wrapped]

/-- C8 witness: the equivalence applied to the `sub2`/`five` test
configuration of the repository's `test_functions`. -/
theorem claim8_witness :
    eval_with_configuration ("sub2" ++ " " ++ "five") functionTestConfiguration =
      eval_with_configuration ("sub2" ++ "(" ++ "five" ++ ")") functionTestConfiguration :=
  claim8_juxtaposition "sub2" "five" functionTestConfiguration
    { argument_amount := 1
      function := fun args =>
        match args with
        | .int n :: _ => .ok (.int (n - 2))
        | v :: _ => .error (Error.expected_number v)
        | [] => .error (Error.wrong_argument_amount 0 1) }
    (.int 5) (by decide) (by decide) (by simp [functionTestConfiguration]) (by decide)

/-! ## Claim C1: integer division typing

The claim quantifies over all integer pairs written as source text, so we
fix a decimal rendering (`intToString`, minus sign followed by digits)
and prove the pipeline against it. -/

/-- Decimal digit characters of a natural number, most significant
first. -/
def natDigits (n : Nat) : List Char :=
  if h : n < 10 then [Char.ofNat (48 + n)]
  else natDigits (n / 10) ++ [Char.ofNat (48 + n % 10)]
termination_by n
decreasing_by exact Nat.div_lt_self (by omega) (by omega)

/-- Decimal rendering of a natural number. -/
def natToString (n : Nat) : String := String.mk (natDigits n)

/-- Decimal rendering of an integer, `-` followed by digits when
negative. -/
def intToString (a : Int) : String :=
  if a < 0 then "-" ++ natToString (-a).toNat else natToString a.toNat

theorem digitChar_toNat (d : Nat) (h : d < 10) : (Char.ofNat (48 + d)).toNat = 48 + d := by
  interval_cases d <;> decide

theorem digitChar_isDigit (d : Nat) (h : d < 10) : isDigitChar (Char.ofNat (48 + d)) = true := by
  interval_cases d <;> decide

theorem natDigits_all_digits (n : Nat) : ∀ c ∈ natDigits n, isDigitChar c = true := by
  induction n using Nat.strong_induction_on with
  | _ n ih =>
    intro c hc
    rw [natDigits] at hc
    split at hc
    · rw [List.mem_singleton] at hc
      subst hc
      exact digitChar_isDigit n (by omega)
    · rw [List.mem_append] at hc
      rcases hc with hc | hc
      · exact ih (n / 10) (Nat.div_lt_self (by omega) (by omega)) c hc
      · rw [List.mem_singleton] at hc
        subst hc
        exact digitChar_isDigit (n % 10) (by omega)

theorem natDigits_ne_nil (n : Nat) : natDigits n ≠ [] := by
  rw [natDigits]
  split
  · simp
  · simp

theorem natVal_append (ds es : List Char) :
    natVal (ds ++ es) = es.foldl (fun a c => a * 10 + (c.toNat - 48)) (natVal ds) := by
  rw [natVal, natVal, List.foldl_append]

/-- The scanner's digit accumulator recovers the rendered number. -/
theorem natVal_natDigits (n : Nat) : natVal (natDigits n) = n := by
  induction n using Nat.strong_induction_on with
  | _ n ih =>
    rw [natDigits]
    split
    · rw [natVal]
      simp [List.foldl_cons, digitChar_toNat n (by omega)]
    · rw [natVal_append, List.foldl_cons, List.foldl_nil]
      rw [show natVal (natDigits (n / 10)) = n / 10 from
        ih (n / 10) (Nat.div_lt_self (by omega) (by omega))]
      rw [digitChar_toNat (n % 10) (by omega)]
      omega

theorem isDigitChar_classes (c : Char) (h : isDigitChar c = true) :
    isWhitespaceChar c = false := by
  simp only [isDigitChar, Bool.and_eq_true, decide_eq_true_eq] at h
  simp only [isWhitespaceChar, Bool.or_eq_false_iff, decide_eq_false_iff_not]
  omega

theorem startChar_digit (c : Char) (h : isDigitChar c = true) :
    startChar c = ([], .inInt [c]) := by
  have hws := isDigitChar_classes c h
  simp [startChar, hws, h]

/-- Digit characters keep accumulating into the integer buffer. -/
theorem runLex_digit_run : ∀ (l b : List Char),
    (∀ c ∈ l, isDigitChar c = true) →
    runLex (.inInt b) l = ([], .inInt (b ++ l)) := by
  intro l
  induction l with
  | nil =>
    intro b _
    simp [runLex]
  | cons c l ih =>
    intro b hall
    have hc : isDigitChar c = true := hall c (List.mem_cons_self _ _)
    have hstep : stepCore (.inInt b) c = ([], .inInt (b ++ [c])) := by
      simp [stepCore, hc]
    rw [runLex_cons, hstep, ih (b ++ [c]) (fun d hd => hall d (List.mem_cons_of_mem _ hd))]
    simp

/-- Scanning a rendered number from the neutral state accumulates
exactly its digits. -/
theorem runLex_start_digits (n : Nat) :
    runLex .start (natDigits n) = ([], .inInt (natDigits n)) := by
  rcases hd : natDigits n with _ | ⟨c, cs⟩
  · exact absurd hd (natDigits_ne_nil n)
  · have hall := natDigits_all_digits n
    rw [hd] at hall
    have hc : isDigitChar c = true := hall c (List.mem_cons_self _ _)
    rw [runLex_cons]
    rw [show stepCore .start c = ([], .inInt [c]) from startChar_digit c hc]
    rw [runLex_digit_run cs [c] (fun d hd2 => hall d (List.mem_cons_of_mem _ hd2))]
    simp

/-- Scanning a rendered integer: an optional minus token and the digit
buffer of its absolute value. -/
theorem runLex_start_int (a : Int) :
    runLex .start (intToString a).data =
      ((if a < 0 then [Token.minus] else []), .inInt (natDigits a.natAbs)) := by
  rw [intToString]
  split
  · have hd : ("-" ++ natToString (-a).toNat).data = '-' :: natDigits (-a).toNat := by
      simp [natToString, String.data_append]
    rw [hd, runLex_cons]
    rw [show stepCore .start '-' = ([.minus], .start) from rfl]
    rw [runLex_start_digits]
    have hna : (-a).toNat = a.natAbs := by omega
    simp [hna]
  · have hd : (natToString a.toNat).data = natDigits a.toNat := rfl
    rw [hd, runLex_start_digits]
    have hna : a.toNat = a.natAbs := by omega
    simp [hna]

/-- Scanning `" / "` after a number flushes it and emits the division
operator. -/
theorem runLex_inInt_sep (ds rest : List Char) :
    runLex (.inInt ds) (' ' :: '/' :: ' ' :: rest) =
      ([.intLit (natVal ds : Int), .slash] ++ (runLex .start rest).1,
        (runLex .start rest).2) := by
  rw [runLex_cons]
  rw [show stepCore (.inInt ds) ' ' = ([.intLit (natVal ds : Int)], .start) from rfl]
  rw [runLex_cons]
  rw [show stepCore .start '/' = ([.slash], .start) from rfl]
  rw [runLex_cons]
  rw [show stepCore .start ' ' = ([], .start) from rfl]
  simp

/-- Scanning `".0"` after a number turns the integer buffer into a float
buffer with fractional digit `0`. -/
theorem runLex_inInt_float_suffix (ds rest : List Char) :
    runLex (.inInt ds) ('.' :: '0' :: rest) =
      ((runLex (.inFloat ds ['0']) rest).1, (runLex (.inFloat ds ['0']) rest).2) := by
  rw [runLex_cons]
  rw [show stepCore (.inInt ds) '.' = ([], .intDot ds) from rfl]
  rw [runLex_cons]
  rw [show stepCore (.intDot ds) '0' = ([], .inFloat ds ['0']) from rfl]
  simp

/-- Scanning `" / "` after a float flushes it and emits the division
operator. -/
theorem runLex_inFloat_sep (ds fs rest : List Char) :
    runLex (.inFloat ds fs) (' ' :: '/' :: ' ' :: rest) =
      ([.floatLit (floatVal ds fs), .slash] ++ (runLex .start rest).1,
        (runLex .start rest).2) := by
  rw [runLex_cons]
  rw [show stepCore (.inFloat ds fs) ' ' = ([.floatLit (floatVal ds fs)], .start) from rfl]
  rw [runLex_cons]
  rw [show stepCore .start '/' = ([.slash], .start) from rfl]
  rw [runLex_cons]
  rw [show stepCore .start ' ' = ([], .start) from rfl]
  simp

/-- Tokenizing `a / b` with both operands written as integers. -/
theorem tokenize_int_div (a b : Int) :
    tokenize (intToString a ++ " / " ++ intToString b) =
      .ok ((if a < 0 then [Token.minus] else []) ++ [.intLit (a.natAbs : Int), .slash]
        ++ (if b < 0 then [Token.minus] else []) ++ [.intLit (b.natAbs : Int)]) := by
  have hdata : (intToString a ++ " / " ++ intToString b).data =
      (intToString a).data ++ (' ' :: '/' :: ' ' :: (intToString b).data) := by
    simp [String.data_append]
  rw [tokenize, hdata]
  rw [show List.foldl lexStep ([], .start)
      ((intToString a).data ++ (' ' :: '/' :: ' ' :: (intToString b).data)) =
    runLex .start ((intToString a).data ++ (' ' :: '/' :: ' ' :: (intToString b).data))
    from rfl]
  rw [runLex_append, runLex_start_int a, runLex_inInt_sep, runLex_start_int b]
  simp [flushMode, natVal_natDigits]

/-- Tokenizing `a.0 / b`: the left operand written as a float. -/
theorem tokenize_float_left_div (a b : Int) :
    tokenize (intToString a ++ ".0 / " ++ intToString b) =
      .ok ((if a < 0 then [Token.minus] else [])
        ++ [.floatLit (floatVal (natDigits a.natAbs) ['0']), .slash]
        ++ (if b < 0 then [Token.minus] else []) ++ [.intLit (b.natAbs : Int)]) := by
  have hdata : (intToString a ++ ".0 / " ++ intToString b).data =
      (intToString a).data ++ ('.' :: '0' :: ' ' :: '/' :: ' ' :: (intToString b).data) := by
    simp [String.data_append]
  rw [tokenize, hdata]
  rw [show List.foldl lexStep ([], .start)
      ((intToString a).data ++ ('.' :: '0' :: ' ' :: '/' :: ' ' :: (intToString b).data)) =
    runLex .start
      ((intToString a).data ++ ('.' :: '0' :: ' ' :: '/' :: ' ' :: (intToString b).data))
    from rfl]
  rw [runLex_append, runLex_start_int a, runLex_inInt_float_suffix,
    runLex_inFloat_sep, runLex_start_int b]
  simp [flushMode, natVal_natDigits]

/-- Tokenizing `a / b.0`: the right operand written as a float. -/
theorem tokenize_float_right_div (a b : Int) :
    tokenize (intToString a ++ " / " ++ intToString b ++ ".0") =
      .ok ((if a < 0 then [Token.minus] else []) ++ [.intLit (a.natAbs : Int), .slash]
        ++ (if b < 0 then [Token.minus] else [])
        ++ [.floatLit (floatVal (natDigits b.natAbs) ['0'])]) := by
  have hdata : (intToString a ++ " / " ++ intToString b ++ ".0").data =
      (intToString a).data ++ (' ' :: '/' :: ' ' :: ((intToString b).data ++ ['.', '0'])) := by
    simp [String.data_append]
  rw [tokenize, hdata]
  rw [show List.foldl lexStep ([], .start)
      ((intToString a).data ++ (' ' :: '/' :: ' ' :: ((intToString b).data ++ ['.', '0']))) =
    runLex .start
      ((intToString a).data ++ (' ' :: '/' :: ' ' :: ((intToString b).data ++ ['.', '0'])))
    from rfl]
  rw [runLex_append, runLex_start_int a, runLex_inInt_sep, runLex_append,
    runLex_start_int b, runLex_inInt_float_suffix]
  rw [show runLex (.inFloat (natDigits b.natAbs) ['0']) [] =
    ([], .inFloat (natDigits b.natAbs) ['0']) from rfl]
  simp [flushMode, natVal_natDigits]

theorem build_div_ii (p r : Int) :
    tokens_to_operator_tree [.intLit p, .slash, .intLit r] =
      .ok (.mk .div [.mk (.const (.int p)) [], .mk (.const (.int r)) []]) := rfl

theorem build_div_ni (p r : Int) :
    tokens_to_operator_tree [.minus, .intLit p, .slash, .intLit r] =
      .ok (.mk .div [.mk .neg [.mk (.const (.int p)) []], .mk (.const (.int r)) []]) := rfl

theorem build_div_in (p r : Int) :
    tokens_to_operator_tree [.intLit p, .slash, .minus, .intLit r] =
      .ok (.mk .div [.mk (.const (.int p)) [], .mk .neg [.mk (.const (.int r)) []]]) := rfl

theorem build_div_nn (p r : Int) :
    tokens_to_operator_tree [.minus, .intLit p, .slash, .minus, .intLit r] =
      .ok (.mk .div [.mk .neg [.mk (.const (.int p)) []],
        .mk .neg [.mk (.const (.int r)) []]]) := rfl

theorem build_div_fi (q : Rat) (r : Int) :
    tokens_to_operator_tree [.floatLit q, .slash, .intLit r] =
      .ok (.mk .div [.mk (.const (.float q)) [], .mk (.const (.int r)) []]) := rfl

theorem build_div_nfi (q : Rat) (r : Int) :
    tokens_to_operator_tree [.minus, .floatLit q, .slash, .intLit r] =
      .ok (.mk .div [.mk .neg [.mk (.const (.float q)) []], .mk (.const (.int r)) []]) := rfl

theorem build_div_fin (q : Rat) (r : Int) :
    tokens_to_operator_tree [.floatLit q, .slash, .minus, .intLit r] =
      .ok (.mk .div [.mk (.const (.float q)) [], .mk .neg [.mk (.const (.int r)) []]]) := rfl

theorem build_div_nfn (q : Rat) (r : Int) :
    tokens_to_operator_tree [.minus, .floatLit q, .slash, .minus, .intLit r] =
      .ok (.mk .div [.mk .neg [.mk (.const (.float q)) []],
        .mk .neg [.mk (.const (.int r)) []]]) := rfl

theorem build_div_if (p : Int) (q : Rat) :
    tokens_to_operator_tree [.intLit p, .slash, .floatLit q] =
      .ok (.mk .div [.mk (.const (.int p)) [], .mk (.const (.float q)) []]) := rfl

theorem build_div_nif (p : Int) (q : Rat) :
    tokens_to_operator_tree [.minus, .intLit p, .slash, .floatLit q] =
      .ok (.mk .div [.mk .neg [.mk (.const (.int p)) []], .mk (.const (.float q)) []]) := rfl

theorem build_div_inf (p : Int) (q : Rat) :
    tokens_to_operator_tree [.intLit p, .slash, .minus, .floatLit q] =
      .ok (.mk .div [.mk (.const (.int p)) [], .mk .neg [.mk (.const (.float q)) []]]) := rfl

theorem build_div_ninf (p : Int) (q : Rat) :
    tokens_to_operator_tree [.minus, .intLit p, .slash, .minus, .floatLit q] =
      .ok (.mk .div [.mk .neg [.mk (.const (.int p)) []],
        .mk .neg [.mk (.const (.float q)) []]]) := rfl

theorem evalNode_neg (cfg : Configuration) (c : Node) :
    evalNode cfg (.mk .neg [c]) =
      (do
        let v ← evalNode cfg c
        negValue v) := by
  simp [evalNode, Operator.argumentAmount]

theorem eval_div_node (cfg : Configuration) (L R : Node) (vl vr : Value)
    (hl : evalNode cfg L = .ok vl) (hr : evalNode cfg R = .ok vr) :
    evalNode cfg (.mk .div [L, R]) = numericBinary Int.tdiv ratDiv vl vr := by
  rw [evalNode_div, hl, except_bind_ok, hr, except_bind_ok]

theorem eval_neg_const_int (cfg : Configuration) (n : Int) :
    evalNode cfg (.mk .neg [.mk (.const (.int n)) []]) = .ok (.int (-n)) := by
  rw [evalNode_neg, evalNode_const, except_bind_ok]
  rfl

theorem eval_neg_const_float (cfg : Configuration) (q : Rat) :
    evalNode cfg (.mk .neg [.mk (.const (.float q)) []]) = .ok (.float (ratNeg q)) := by
  rw [evalNode_neg, evalNode_const, except_bind_ok]
  rfl

/-- The float literal written `n.0` denotes exactly the integer `n`. -/
theorem floatVal_digits0 (n : Nat) : floatVal (natDigits n) ['0'] = (n : ℚ) := by
  rw [floatVal, natVal_natDigits]
  rw [show natVal ['0'] = 0 from rfl]
  rw [show (['0'] : List Char).length = 1 from rfl]
  rw [Rat.mkRat_eq_div]
  push_cast
  field_simp

theorem natAbs_rat_of_neg (a : Int) (ha : a < 0) : ((a.natAbs : ℚ)) = -(a : ℚ) := by
  rw [Int.cast_natAbs, abs_of_neg ha]
  push_cast
  ring

theorem natAbs_rat_of_nonneg (a : Int) (ha : 0 ≤ a) : ((a.natAbs : ℚ)) = (a : ℚ) := by
  rw [Int.cast_natAbs, abs_of_nonneg ha]

theorem numBin_int_int (f : Int → Int → Int) (g : Rat → Rat → Rat) (p r : Int) :
    numericBinary f g (.int p) (.int r) = .ok (.int (f p r)) := rfl

theorem numBin_float_int (f : Int → Int → Int) (g : Rat → Rat → Rat) (q : Rat) (r : Int) :
    numericBinary f g (.float q) (.int r) = .ok (.float (g q (ratOfInt r))) := rfl

theorem numBin_int_float (f : Int → Int → Int) (g : Rat → Rat → Rat) (p : Int) (q : Rat) :
    numericBinary f g (.int p) (.float q) = .ok (.float (g (ratOfInt p) q)) := rfl

/-- C1: for every pair of integers `a`, `b` with `b ≠ 0`, evaluating
`a / b` (both operands written as integers) returns the Integer given by
truncating division; writing either operand as a Float (here `a.0` or
`b.0`) instead returns a Float equal to the exact real-valued quotient;
and in particular `eval("5 / 4")` is `Integer(1)`. -/
theorem claim1_division_typing :
    (∀ a b : Int, b ≠ 0 →
      eval (intToString a ++ " / " ++ intToString b) = .ok (.int (Int.tdiv a b)))
    ∧ (∀ a b : Int, b ≠ 0 →
      eval (intToString a ++ ".0 / " ++ intToString b) = .ok (.float ((a : ℚ) / (b : ℚ))))
    ∧ (∀ a b : Int, b ≠ 0 →
      eval (intToString a ++ " / " ++ intToString b ++ ".0") =
        .ok (.float ((a : ℚ) / (b : ℚ))))
    ∧ eval "5 / 4" = .ok (.int 1) := by
  refine ⟨?_, ?_, ?_, by decide⟩
  · intro a b _
    rw [eval, tokenize_int_div]
    rcases lt_or_ge a 0 with ha | ha <;> rcases lt_or_ge b 0 with hb2 | hb2
    · rw [if_pos ha, if_pos hb2]
      simp only [List.cons_append, List.nil_append]
      rw [except_bind_ok, build_div_nn, except_bind_ok, Node.eval]
      rw [eval_div_node _ _ _ _ _ (eval_neg_const_int _ _) (eval_neg_const_int _ _)]
      rw [numBin_int_int]
      rw [show -(a.natAbs : Int) = a from by omega, show -(b.natAbs : Int) = b from by omega]
    · rw [if_pos ha, if_neg (not_lt.2 hb2)]
      simp only [List.cons_append, List.nil_append]
      rw [except_bind_ok, build_div_ni, except_bind_ok, Node.eval]
      rw [eval_div_node _ _ _ _ _ (eval_neg_const_int _ _) (evalNode_const _ _)]
      rw [numBin_int_int]
      rw [show -(a.natAbs : Int) = a from by omega, show (b.natAbs : Int) = b from by omega]
    · rw [if_neg (not_lt.2 ha), if_pos hb2]
      simp only [List.cons_append, List.nil_append]
      rw [except_bind_ok, build_div_in, except_bind_ok, Node.eval]
      rw [eval_div_node _ _ _ _ _ (evalNode_const _ _) (eval_neg_const_int _ _)]
      rw [numBin_int_int]
      rw [show (a.natAbs : Int) = a from by omega, show -(b.natAbs : Int) = b from by omega]
    · rw [if_neg (not_lt.2 ha), if_neg (not_lt.2 hb2)]
      simp only [List.cons_append, List.nil_append]
      rw [except_bind_ok, build_div_ii, except_bind_ok, Node.eval]
      rw [eval_div_node _ _ _ _ _ (evalNode_const _ _) (evalNode_const _ _)]
      rw [numBin_int_int]
      rw [show (a.natAbs : Int) = a from by omega, show (b.natAbs : Int) = b from by omega]
  · intro a b _
    rw [eval, tokenize_float_left_div]
    rcases lt_or_ge a 0 with ha | ha <;> rcases lt_or_ge b 0 with hb2 | hb2
    · rw [if_pos ha, if_pos hb2]
      simp only [List.cons_append, List.nil_append]
      rw [except_bind_ok, build_div_nfn, except_bind_ok, Node.eval]
      rw [eval_div_node _ _ _ _ _ (eval_neg_const_float _ _) (eval_neg_const_int _ _)]
      rw [numBin_float_int]
      rw [show -(b.natAbs : Int) = b from by omega]
      rw [ratDiv_eq, ratNeg_eq, ratOfInt_eq, floatVal_digits0, natAbs_rat_of_neg a ha,
        neg_neg]
    · rw [if_pos ha, if_neg (not_lt.2 hb2)]
      simp only [List.cons_append, List.nil_append]
      rw [except_bind_ok, build_div_nfi, except_bind_ok, Node.eval]
      rw [eval_div_node _ _ _ _ _ (eval_neg_const_float _ _) (evalNode_const _ _)]
      rw [numBin_float_int]
      rw [show (b.natAbs : Int) = b from by omega]
      rw [ratDiv_eq, ratNeg_eq, ratOfInt_eq, floatVal_digits0, natAbs_rat_of_neg a ha,
        neg_neg]
    · rw [if_neg (not_lt.2 ha), if_pos hb2]
      simp only [List.cons_append, List.nil_append]
      rw [except_bind_ok, build_div_fin, except_bind_ok, Node.eval]
      rw [eval_div_node _ _ _ _ _ (evalNode_const _ _) (eval_neg_const_int _ _)]
      rw [numBin_float_int]
      rw [show -(b.natAbs : Int) = b from by omega]
      rw [ratDiv_eq, ratOfInt_eq, floatVal_digits0, natAbs_rat_of_nonneg a ha]
    · rw [if_neg (not_lt.2 ha), if_neg (not_lt.2 hb2)]
      simp only [List.cons_append, List.nil_append]
      rw [except_bind_ok, build_div_fi, except_bind_ok, Node.eval]
      rw [eval_div_node _ _ _ _ _ (evalNode_const _ _) (evalNode_const _ _)]
      rw [numBin_float_int]
      rw [show (b.natAbs : Int) = b from by omega]
      rw [ratDiv_eq, ratOfInt_eq, floatVal_digits0, natAbs_rat_of_nonneg a ha]
  · intro a b _
    rw [eval, tokenize_float_right_div]
    rcases lt_or_ge a 0 with ha | ha <;> rcases lt_or_ge b 0 with hb2 | hb2
    · rw [if_pos ha, if_pos hb2]
      simp only [List.cons_append, List.nil_append]
      rw [except_bind_ok, build_div_ninf, except_bind_ok, Node.eval]
      rw [eval_div_node _ _ _ _ _ (eval_neg_const_int _ _) (eval_neg_const_float _ _)]
      rw [show numericBinary Int.tdiv ratDiv (.int (-(a.natAbs : Int)))
        (.float (ratNeg (floatVal (natDigits b.natAbs) ['0']))) =
        .ok (.float (ratDiv (ratOfInt (-(a.natAbs : Int)))
          (ratNeg (floatVal (natDigits b.natAbs) ['0'])))) from rfl]
      rw [show -(a.natAbs : Int) = a from by omega]
      rw [ratDiv_eq, ratNeg_eq, ratOfInt_eq, floatVal_digits0, natAbs_rat_of_neg b hb2,
        neg_neg]
    · rw [if_pos ha, if_neg (not_lt.2 hb2)]
      simp only [List.cons_append, List.nil_append]
      rw [except_bind_ok, build_div_nif, except_bind_ok, Node.eval]
      rw [eval_div_node _ _ _ _ _ (eval_neg_const_int _ _) (evalNode_const _ _)]
      rw [numBin_int_float]
      rw [show -(a.natAbs : Int) = a from by omega]
      rw [ratDiv_eq, ratOfInt_eq, floatVal_digits0, natAbs_rat_of_nonneg b hb2]
    · rw [if_neg (not_lt.2 ha), if_pos hb2]
      simp only [List.cons_append, List.nil_append]
      rw [except_bind_ok, build_div_inf, except_bind_ok, Node.eval]
      rw [eval_div_node _ _ _ _ _ (evalNode_const _ _) (eval_neg_const_float _ _)]
      rw [numBin_int_float]
      rw [show (a.natAbs : Int) = a from by omega]
      rw [ratDiv_eq, ratNeg_eq, ratOfInt_eq, floatVal_digits0, natAbs_rat_of_neg b hb2,
        neg_neg]
    · rw [if_neg (not_lt.2 ha), if_neg (not_lt.2 hb2)]
      simp only [List.cons_append, List.nil_append]
      rw [except_bind_ok, build_div_if, except_bind_ok, Node.eval]
      rw [eval_div_node _ _ _ _ _ (evalNode_const _ _) (evalNode_const _ _)]
      rw [numBin_int_float]
      rw [show (a.natAbs : Int) = a from by omega]
      rw [ratDiv_eq, ratOfInt_eq, floatVal_digits0, natAbs_rat_of_nonneg b hb2]

/-- C1 witness: the division theorem applied at `a = 5`, `b = 4`,
together with the concrete `eval("5 / 4") = Integer(1)` conjunct. -/
theorem claim1_witness :
    ((4 : Int) ≠ 0 ∧
      eval (intToString 5 ++ " / " ++ intToString 4) = .ok (.int (Int.tdiv 5 4))) ∧
      eval "5 / 4" = .ok (.int 1) :=
  ⟨⟨by decide, claim1_division_typing.1 5 4 (by decide)⟩, claim1_division_typing.2.2.2⟩

end Evalexpr
